import Mathlib

/-!
Verification of the squidly-cursor-app pointer-input and simulation layer.

The development shallowly embeds the JavaScript sources:
  * `input-manager.js` (class `InputManager`): multi-pointer registry,
    ball-slot assignment, prioritised target selection, idle cleanup;
  * `ballpit-cursor.js` (class `WebGLBallpitCursor._stepPhysics`): the
    rigid-ball physics step (leader easing, pairwise collisions, cursor
    repulsion, integration and wall bounces);
  * `ballpit-cursor.js` (class `WebGLFluidCursor`): the fluid cursor's
    pointer bookkeeping (`_updateColors`, `_applyInputs`,
    `_updatePointerMoveData`, `_handleFluidInput` coupling).

JavaScript numbers are modelled as exact rationals; the coordinate
arguments of `updatePointerPosition`, which in JS may be `undefined`,
`null`, `NaN` or a finite number, are modelled by the inductive `JVal`.
Library geometry (THREE.js raycasting) and `Math.hypot` square roots are
taken as abstract function parameters: every theorem below holds for all
instantiations of those parameters.
-/

namespace Squidly

/-- JavaScript values that can arrive in the coordinate arguments of
`updatePointerPosition`: `undefined`, `null`, `NaN`, or a (finite) number
modelled as a rational. -/
inductive JVal where
  | undef : JVal
  | nullv : JVal
  | nan : JVal
  | num (q : ℚ) : JVal
deriving DecidableEq, Repr

/-- A colour payload: an RGB-style JS array of numbers.  `null` colours are
modelled as `Option.none` around this type.  (JS arrays are always truthy;
`null` and `undefined` are falsy.) -/
abbrev Color := List ℚ

/-- JS `color || fallback` on `Array|null` values: an array (even empty) is
truthy, `null` is falsy. -/
def jsOrColor (c : Option Color) (d : Option Color) : Option Color :=
  match c with
  | some v => some v
  | none => d

/-- JS `t || d` on an optional numeric argument: both a missing argument and
the falsy number `0` fall back to the default `d`. -/
def jsOrQ (c : Option ℚ) (d : ℚ) : ℚ :=
  match c with
  | some q => if q = 0 then d else q
  | none => d

/-! ### Association lists

JS `Map` objects keep insertion order; we model them as association lists in
insertion order.  `setA` updates an existing key in place and appends a new
key at the end, exactly as `Map.prototype.set` does; `eraseA` is
`Map.prototype.delete`. -/

/-- First binding of key `k`, like `Map.prototype.get`. -/
def lookupA {α : Type} : List (String × α) → String → Option α
  | [], _ => none
  | (k1, v) :: t, k => if k1 = k then some v else lookupA t k

/-- Update-in-place-or-append, like `Map.prototype.set`. -/
def setA {α : Type} : List (String × α) → String → α → List (String × α)
  | [], k, v => [(k, v)]
  | (k1, v1) :: t, k, v =>
      if k1 = k then (k, v) :: t else (k1, v1) :: setA t k v

/-- Delete all bindings of key `k` (with unique keys this is
`Map.prototype.delete`). -/
def eraseA {α : Type} (l : List (String × α)) (k : String) : List (String × α) :=
  l.filter (fun e => !(e.1 = k : Bool))

/-! ### InputManager data model (input-manager.js) -/

/-- One entry of `InputManager._pointers`: the object literal created by
`_getOrCreatePointer`. -/
structure Pointer where
  id : String
  x : JVal
  y : JVal
  lastSeen : ℚ
  color : Option Color
  ballIndex : Option ℕ
deriving DecidableEq, Repr

/-- The state of an `InputManager` instance: configuration options, pointer
registry, eyegaze-ball assignment map, its monotone counter, and the
`totalUpdates` statistic. -/
structure InputManager where
  cursorType : String
  useBallAssignment : Bool
  inactiveTimeout : ℚ
  pointers : List (String × Pointer)
  eyegazeBallIndices : List (String × ℕ)
  nextAvailableBallIndex : ℕ
  totalUpdates : ℕ
deriving DecidableEq, Repr

/-- The constructor: `cursorType: options.cursorType || 'fluid'`,
`useBallAssignment: options.useBallAssignment || false`,
`inactiveTimeout: options.inactiveTimeout || 5000`. -/
def mkInputManager (cursorType : Option String) (useBallAssignment : Option Bool)
    (inactiveTimeout : Option ℚ) : InputManager :=
  { cursorType := cursorType.getD "fluid"
    useBallAssignment := useBallAssignment.getD false
    inactiveTimeout := jsOrQ inactiveTimeout 5000
    pointers := []
    eyegazeBallIndices := []
    nextAvailableBallIndex := 1
    totalUpdates := 0 }

/-- The pointer object literal built inside `_getOrCreatePointer`:
`{ id, x: 0, y: 0, lastSeen: 0, color, ballIndex: id === "mouse" ? 0 : null }`. -/
def createPointer (id : String) (color : Option Color) : Pointer :=
  { id := id, x := JVal.num 0, y := JVal.num 0, lastSeen := 0, color := color
    ballIndex := if id = "mouse" then some 0 else none }

/-- `InputManager._getOrCreatePointer`: insert a fresh pointer when the id is
absent (its object identity is recovered by looking the id up again). -/
def getOrCreatePointer (m : InputManager) (id : String) (color : Option Color) :
    InputManager :=
  match lookupA m.pointers id with
  | some _ => m
  | none => { m with pointers := m.pointers ++ [(id, createPointer id color)] }

/-- `InputManager._assignBallIndex`: allocate `nextAvailableBallIndex++` for a
user without an assignment, record it in the map and on the live pointer. -/
def assignBallIndex (m : InputManager) (userType : String) : InputManager :=
  match lookupA m.eyegazeBallIndices userType with
  | some _ => m
  | none =>
      let ballIndex := m.nextAvailableBallIndex
      let ptrs :=
        match lookupA m.pointers userType with
        | some p => setA m.pointers userType { p with ballIndex := some ballIndex }
        | none => m.pointers
      { m with
          eyegazeBallIndices := m.eyegazeBallIndices ++ [(userType, ballIndex)]
          pointers := ptrs
          nextAvailableBallIndex := ballIndex + 1 }

/-- `InputManager._releaseBallIndex`: only when the user holds a ball index,
delete both the assignment and the pointer itself. -/
def releaseBallIndex (m : InputManager) (userType : String) : InputManager :=
  match lookupA m.eyegazeBallIndices userType with
  | some _ =>
      { m with
          eyegazeBallIndices := eraseA m.eyegazeBallIndices userType
          pointers := eraseA m.pointers userType }
  | none => m

/-- `InputManager._handleBallpitInput`: assign a ball to every non-mouse user
when ball assignment is enabled. -/
def handleBallpitInput (m : InputManager) (p : Pointer) : InputManager :=
  if m.useBallAssignment ∧ p.id ≠ "mouse" then assignBallIndex m p.id else m

/-- `InputManager.updatePointerPosition(x, y, color, id)` at time `now`
(`performance.now()`).  The guard rejects exactly `undefined` and `null`
coordinates; all other values, `NaN` included, are stored.  The
cursor-type dispatch to `_handleFluidInput` only mutates the owner (the
fluid simulation, modelled separately below), never the manager itself. -/
def updatePointerPosition (m : InputManager) (x y : JVal) (color : Option Color)
    (id : String) (now : ℚ) : InputManager :=
  if x = JVal.undef ∨ x = JVal.nullv ∨ y = JVal.undef ∨ y = JVal.nullv then m
  else
    let m1 := getOrCreatePointer m id color
    match lookupA m1.pointers id with
    | none => m1
    | some p =>
        let p1 := { p with x := x, y := y, lastSeen := now
                           color := jsOrColor color p.color }
        let m2 := { m1 with pointers := setA m1.pointers id p1
                            totalUpdates := m1.totalUpdates + 1 }
        if m2.cursorType = "ballpit" then handleBallpitInput m2 p1 else m2

/-- `InputManager.getPointer`. -/
def getPointer (m : InputManager) (id : String) : Option Pointer :=
  lookupA m.pointers id

/-- `InputManager.hasPointer`. -/
def hasPointer (m : InputManager) (id : String) : Bool :=
  (lookupA m.pointers id).isSome

/-- `InputManager.removePointer`: returns the updated manager and the JS
return value. -/
def removePointer (m : InputManager) (id : String) : InputManager × Bool :=
  if (lookupA m.pointers id).isSome then
    (if m.useBallAssignment then releaseBallIndex m id
     else { m with pointers := eraseA m.pointers id }, true)
  else (m, false)

/-- The removal body shared by `cleanupInactiveUsers` and
`clearNonMousePointers` (`toRemove.forEach(...)`). -/
def removeOne (m : InputManager) (id : String) : InputManager :=
  if m.useBallAssignment then releaseBallIndex m id
  else { m with pointers := eraseA m.pointers id }

/-- `InputManager.cleanupInactiveUsers(timeoutMs)` at time `now`: collects the
non-mouse ids with `now - lastSeen > timeout`, removes each, and returns the
length of that list (`removed++` runs for every collected id whether or not
the removal had an effect). -/
def cleanupInactiveUsers (m : InputManager) (timeoutMs : Option ℚ) (now : ℚ) :
    InputManager × ℕ :=
  let timeout := jsOrQ timeoutMs m.inactiveTimeout
  let toRemove :=
    (m.pointers.filter
      (fun e => !(e.1 = "mouse" : Bool) && decide (timeout < now - e.2.lastSeen))).map
      Prod.fst
  (toRemove.foldl removeOne m, toRemove.length)

/-- `InputManager.clearNonMousePointers`. -/
def clearNonMousePointers (m : InputManager) : InputManager × ℕ :=
  let toRemove := (m.pointers.filter (fun e => !(e.1 = "mouse" : Bool))).map Prod.fst
  (toRemove.foldl removeOne m, toRemove.length)

/-- `InputManager.reset`. -/
def resetManager (m : InputManager) : InputManager :=
  { m with pointers := [], eyegazeBallIndices := [], nextAvailableBallIndex := 1
           totalUpdates := 0 }

/-- `InputManager.setCursorType`. -/
def setCursorType (m : InputManager) (t : String) : InputManager :=
  { m with cursorType := t, useBallAssignment := (t = "ballpit" : Bool) }

/-- The fold body of `getTargetPointer`'s fallback scan:
`if (p.lastSeen > latestTime) { latestTime = p.lastSeen; latest = p; }`. -/
def latestStep (acc : Option Pointer × ℚ) (e : String × Pointer) :
    Option Pointer × ℚ :=
  if acc.2 < e.2.lastSeen then (some e.2, e.2.lastSeen) else acc

/-- `InputManager.getTargetPointer`: the mouse pointer when present, otherwise
the most recently seen pointer (scan started at `latestTime = -1`). -/
def getTargetPointer (m : InputManager) : Option Pointer :=
  match lookupA m.pointers "mouse" with
  | some p => some p
  | none => (m.pointers.foldl latestStep (none, -1)).1

/-! ### Operation sequences on a manager

The public mutating API, used to state trace invariants. -/

/-- One public mutating call on an `InputManager`. -/
inductive MOp where
  | update (x y : JVal) (color : Option Color) (id : String) (now : ℚ) : MOp
  | remove (id : String) : MOp
  | cleanup (timeoutMs : Option ℚ) (now : ℚ) : MOp
  | clearNonMouse : MOp
  | doReset : MOp
  | setType (t : String) : MOp
deriving DecidableEq

/-- Apply one public call (discarding JS return values). -/
def applyOp (m : InputManager) : MOp → InputManager
  | MOp.update x y c id now => updatePointerPosition m x y c id now
  | MOp.remove id => (removePointer m id).1
  | MOp.cleanup t now => (cleanupInactiveUsers m t now).1
  | MOp.clearNonMouse => (clearNonMousePointers m).1
  | MOp.doReset => resetManager m
  | MOp.setType t => setCursorType m t

/-- Run a call sequence left to right. -/
def runOps (m : InputManager) (ops : List MOp) : InputManager :=
  ops.foldl applyOp m

/-! ### Ballpit physics (ballpit-cursor.js, `WebGLBallpitCursor._stepPhysics`)

The flat `Float32Array`s `positions`/`velocities` are modelled as lists of
3-vectors (`p[3*i+k]` is component `k` of element `i`); `sizes` as a list of
rationals.  Out-of-range writes on a typed array are silently discarded,
which `List.set` mirrors.  `Math.hypot` (a square root, irrational on ℚ) and
the THREE.js screen-to-world raycast of `_stepPhysics`/`_onPointerInputChanged`
are abstract parameters, bundled in `BallEnv`; every theorem holds for all
instantiations. -/

/-- A 3-component vector of rationals. -/
structure Vec3 where
  x : ℚ
  y : ℚ
  z : ℚ
deriving DecidableEq, Repr

/-- The ballpit configuration fields read by `_stepPhysics`. -/
structure BallConfig where
  COUNT : ℕ
  MIN_SIZE : ℚ
  MAX_SIZE : ℚ
  GRAVITY : ℚ
  FRICTION : ℚ
  WALL_BOUNCE : ℚ
  MAX_VEL : ℚ
  FOLLOW_CURSOR : Bool
  LEADER_EASE : ℚ
deriving DecidableEq, Repr

/-- External numerical kernels of the step: `Math.hypot` and the THREE.js
raycast of an eyegaze pointer's `(x, y)` screen position onto the follow
plane (camera, window size and NDC conversion absorbed; `none` models a ray
that misses the plane). -/
structure BallEnv where
  hyp3 : ℚ → ℚ → ℚ → ℚ
  proj : JVal → JVal → Option Vec3

/-- The mutable state read and written by `_stepPhysics`: particle buffers,
the eased cursor target `this.center`, the view bounds, and the cursor's
`InputManager`. -/
structure BallState where
  pos : List Vec3
  vel : List Vec3
  siz : List ℚ
  center : Vec3
  bounds : Vec3
  im : InputManager
deriving DecidableEq, Repr

/-- Position of particle `i` (0 when out of range). -/
def getPos (st : BallState) (i : ℕ) : Vec3 := st.pos.getD i ⟨0, 0, 0⟩

/-- Velocity of particle `i`. -/
def getVel (st : BallState) (i : ℕ) : Vec3 := st.vel.getD i ⟨0, 0, 0⟩

/-- Radius of particle `i`. -/
def getSiz (st : BallState) (i : ℕ) : ℚ := st.siz.getD i 0

/-- `Math.sign`. -/
def jsSign (q : ℚ) : ℚ := if 0 < q then 1 else if q < 0 then -1 else 0

/-- The exponential easing applied to leader particles:
`p += (target - p) * LEADER_EASE` on x and y, with target 0 on z. -/
def easeToward (q : Vec3) (tx ty ease : ℚ) : Vec3 :=
  ⟨q.x + (tx - q.x) * ease, q.y + (ty - q.y) * ease, q.z + (0 - q.z) * ease⟩

/-- One iteration of the eyegaze-leader loop, for map entry
`(userType, ballIndex)`: ease toward the raycast hit when the pointer is
live and the ray meets the plane, hide the ball (`s[ballIndex] = 0`) when
the user is gone. -/
def eyegazeLeader (env : BallEnv) (cfg : BallConfig) (st : BallState)
    (userType : String) (ballIndex : ℕ) : BallState :=
  match lookupA st.im.pointers userType with
  | none => { st with siz := st.siz.set ballIndex 0 }
  | some ptr =>
      match env.proj ptr.x ptr.y with
      | none => st
      | some hit =>
          { st with
              pos := st.pos.set ballIndex
                (easeToward (getPos st ballIndex) hit.x hit.y cfg.LEADER_EASE)
              vel := st.vel.set ballIndex ⟨0, 0, 0⟩
              siz := st.siz.set ballIndex (max cfg.MAX_SIZE 0.36) }

/-- The kinematic cursor-ball phase: the mouse ball (index 0) eases toward
`this.center`, then every eyegaze assignment is processed; without
`FOLLOW_CURSOR` all cursor balls are hidden. -/
def leaderPhase (env : BallEnv) (cfg : BallConfig) (st : BallState) : BallState :=
  if cfg.FOLLOW_CURSOR then
    let st1 :=
      { st with
          pos := st.pos.set 0 (easeToward (getPos st 0) st.center.x st.center.y cfg.LEADER_EASE)
          vel := st.vel.set 0 ⟨0, 0, 0⟩
          siz := st.siz.set 0 (max cfg.MAX_SIZE 0.36) }
    st.im.eyegazeBallIndices.foldl (fun acc e => eyegazeLeader env cfg acc e.1 e.2) st1
  else
    let st1 := { st with siz := st.siz.set 0 0 }
    st.im.eyegazeBallIndices.foldl (fun acc e => { acc with siz := acc.siz.set e.2 0 }) st1

/-- `cursorBallIndices`: the JS `Set` built from index 0 and the eyegaze
assignments, in insertion order. -/
def cursorIdxs (st : BallState) : List ℕ :=
  (0 :: st.im.eyegazeBallIndices.map Prod.snd).dedup

/-- The symmetric soft collision between follower particles `i` and `j`. -/
def pairCollide (env : BallEnv) (st : BallState) (i j : ℕ) : BallState :=
  let pi1 := getPos st i
  let pj1 := getPos st j
  let dx := pi1.x - pj1.x
  let dy := pi1.y - pj1.y
  let dz := pi1.z - pj1.z
  let dist := env.hyp3 dx dy dz
  let minDist := getSiz st i + getSiz st j
  if 0 < dist ∧ dist < minDist then
    let overlap := (minDist - dist) * 0.5
    let nx := dx / dist
    let ny := dy / dist
    let nz := dz / dist
    let push : ℚ := 0.02
    let vi := getVel st i
    let vj := getVel st j
    { st with
        pos := (st.pos.set i ⟨pi1.x + nx * overlap, pi1.y + ny * overlap, pi1.z + nz * overlap⟩).set
          j ⟨pj1.x - nx * overlap, pj1.y - ny * overlap, pj1.z - nz * overlap⟩
        vel := (st.vel.set i ⟨vi.x + nx * push, vi.y + ny * push, vi.z + nz * push⟩).set
          j ⟨vj.x - nx * push, vj.y - ny * push, vj.z - nz * push⟩ }
  else st

/-- The pairwise collision pass over follower particles only. -/
def pairwisePhase (env : BallEnv) (cfg : BallConfig) (st : BallState) : BallState :=
  (List.range' 1 (cfg.COUNT - 1)).foldl
    (fun acc i =>
      if i ∈ cursorIdxs acc then acc
      else
        (List.range' (i + 1) (cfg.COUNT - (i + 1))).foldl
          (fun acc2 j =>
            if j ∈ cursorIdxs acc2 then acc2 else pairCollide env acc2 i j)
          acc)
    st

/-- One-sided repulsion of follower `i` away from a cursor ball at `c` with
radius `cr` (the cursor ball itself is not displaced). -/
def repelOne (env : BallEnv) (st : BallState) (c : Vec3) (cr : ℚ) (i : ℕ) :
    BallState :=
  let q := getPos st i
  let dx := q.x - c.x
  let dy := q.y - c.y
  let dz := q.z - c.z
  let dist := env.hyp3 dx dy dz
  let minDist := cr + getSiz st i
  if 0 < dist ∧ dist < minDist then
    let overlap := minDist - dist
    let nx := dx / dist
    let ny := dy / dist
    let nz := dz / dist
    let sep := overlap * 0.9
    let st1 := { st with
      pos := st.pos.set i ⟨q.x + nx * sep, q.y + ny * sep, q.z + nz * sep⟩ }
    let v := getVel st1 i
    let sp := env.hyp3 v.x v.y v.z
    let speed := if sp = 0 then 1 else sp
    let kick := 0.15 * speed + 0.2
    { st1 with
        vel := st1.vel.set i ⟨v.x + nx * kick, v.y + ny * kick, v.z + nz * kick⟩ }
  else st

/-- The cursor-repulsion pass: every active cursor ball (`cr > 0`) pushes
overlapping followers away. -/
def repulsionPhase (env : BallEnv) (cfg : BallConfig) (st : BallState) : BallState :=
  if cfg.FOLLOW_CURSOR then
    (cursorIdxs st).foldl
      (fun acc bi =>
        let c := getPos acc bi
        let cr := getSiz acc bi
        if 0 < cr then
          (List.range' 1 (cfg.COUNT - 1)).foldl
            (fun acc2 i =>
              if i ∈ cursorIdxs acc2 then acc2 else repelOne env acc2 c cr i)
            acc
        else acc)
      st
  else st

/-- The velocity update of the final loop of `_stepPhysics`: gravity scaled
by radius, friction, and the clamp of the velocity length to `MAX_VEL` (with
the `len || 1` guard in the scale factor). -/
def velPipeline (env : BallEnv) (cfg : BallConfig) (v0 : Vec3) (rad dt : ℚ) :
    Vec3 :=
  let v1 : Vec3 := ⟨v0.x, v0.y - cfg.GRAVITY * rad * dt, v0.z⟩
  let v2 : Vec3 := ⟨v1.x * cfg.FRICTION, v1.y * cfg.FRICTION, v1.z * cfg.FRICTION⟩
  let len := env.hyp3 v2.x v2.y v2.z
  if cfg.MAX_VEL < len then
    let f := cfg.MAX_VEL / (if len = 0 then 1 else len)
    ⟨v2.x * f, v2.y * f, v2.z * f⟩
  else v2

/-- The wall block of the final loop: side walls mirror on x, a solid floor
on y with no ceiling, and front/back walls on z (against
`bz = Math.max(bounds.z, MAX_SIZE || 1)`), each reflecting the velocity with
the bounce damping. -/
def wallClamp (cfg : BallConfig) (bounds : Vec3) (bz rad : ℚ) (p1 v3 : Vec3) :
    Vec3 × Vec3 :=
  let xr := if bounds.x < |p1.x| + rad then
      (jsSign p1.x * (bounds.x - rad), -v3.x * cfg.WALL_BOUNCE) else (p1.x, v3.x)
  let yr := if p1.y - rad < -bounds.y then
      (-bounds.y + rad, -v3.y * cfg.WALL_BOUNCE) else (p1.y, v3.y)
  let zr := if bz < |p1.z| + rad then
      (jsSign p1.z * (bz - rad), -v3.z * cfg.WALL_BOUNCE) else (p1.z, v3.z)
  (⟨xr.1, yr.1, zr.1⟩, ⟨xr.2, yr.2, zr.2⟩)

/-- Gravity, friction, velocity clamp, Euler integration and wall bounces for
one particle, exactly the body of the final `for` loop of `_stepPhysics`
(`bz` is the precomputed `Math.max(bounds.z, MAX_SIZE || 1)`). -/
def integrateWalls (env : BallEnv) (cfg : BallConfig) (bounds : Vec3) (bz : ℚ)
    (pv : Vec3 × Vec3) (rad : ℚ) (dt : ℚ) : Vec3 × Vec3 :=
  let v3 := velPipeline env cfg pv.2 rad dt
  let p1 : Vec3 := ⟨pv.1.x + v3.x, pv.1.y + v3.y, pv.1.z + v3.z⟩
  wallClamp cfg bounds bz rad p1 v3

/-- One iteration of the final integration loop, for particle `i`. -/
def integrateOne (env : BallEnv) (cfg : BallConfig) (dt bz : ℚ)
    (acc : BallState) (i : ℕ) : BallState :=
  let r := integrateWalls env cfg acc.bounds bz (getPos acc i, getVel acc i)
    (getSiz acc i) dt
  { acc with pos := acc.pos.set i r.1, vel := acc.vel.set i r.2 }

/-- The final integration loop over indices `1 .. COUNT-1` (cursor balls
included, as in the source). -/
def integratePhase (env : BallEnv) (cfg : BallConfig) (dt : ℚ) (st : BallState) :
    BallState :=
  let bz := max st.bounds.z (if cfg.MAX_SIZE = 0 then 1 else cfg.MAX_SIZE)
  (List.range' 1 (cfg.COUNT - 1)).foldl (integrateOne env cfg dt bz) st

/-- `WebGLBallpitCursor._stepPhysics(dt)`. -/
def stepPhysics (env : BallEnv) (cfg : BallConfig) (dt : ℚ) (st : BallState) :
    BallState :=
  integratePhase env cfg dt
    (repulsionPhase env cfg (pairwisePhase env cfg (leaderPhase env cfg st)))

/-- `n` physics steps with the same `dt`. -/
def stepN (env : BallEnv) (cfg : BallConfig) (dt : ℚ) : ℕ → BallState → BallState
  | 0, st => st
  | n + 1, st => stepN env cfg dt n (stepPhysics env cfg dt st)

/-- Particle `i` is a free (follower) particle: in range, not the mouse ball,
not an assigned eyegaze cursor ball. -/
def FreeIdx (cfg : BallConfig) (st : BallState) (i : ℕ) : Prop :=
  1 ≤ i ∧ i < cfg.COUNT ∧ i ∉ cursorIdxs st

instance (cfg : BallConfig) (st : BallState) (i : ℕ) :
    Decidable (FreeIdx cfg st i) := by
  unfold FreeIdx; infer_instance

/-- The fields `_stepPhysics` never mutates (the pointer manager, the view
bounds, the eased cursor target) together with the buffer lengths. -/
def Frame (t s : BallState) : Prop :=
  s.im = t.im ∧ s.bounds = t.bounds ∧ s.center = t.center ∧
  s.pos.length = t.pos.length ∧ s.vel.length = t.vel.length ∧
  s.siz.length = t.siz.length

/-- A trivial instantiation of the external kernels: `hyp3` constantly 0 (a
degenerate distance — every collision branch is skipped) and a raycast that
never hits. -/
def demoEnv : BallEnv := { hyp3 := fun _ _ _ => 0, proj := fun _ _ => none }

/-- A two-particle ballpit configuration. -/
def demoCfg : BallConfig :=
  { COUNT := 2, MIN_SIZE := 0.5, MAX_SIZE := 1, GRAVITY := 1, FRICTION := 1
    WALL_BOUNCE := 1, MAX_VEL := 1, FOLLOW_CURSOR := true, LEADER_EASE := 1 }

/-- A two-particle ballpit state: particle 0 is the mouse leader, particle 1
is free; no eyegaze assignments. -/
def demoBallState : BallState :=
  { pos := [⟨0, 0, 0⟩, ⟨0, 0, 0⟩], vel := [⟨0, 0, 0⟩, ⟨0, 0, 0⟩], siz := [1, 0.5]
    center := ⟨0, 0, 0⟩, bounds := ⟨3, 4, 2⟩
    im := mkInputManager (some "ballpit") (some true) none }

/-- A configuration whose `MAX_SIZE` lies below the hard floor `0.36` of the
leader-radius assignment. -/
def cexCfg : BallConfig :=
  { COUNT := 1, MIN_SIZE := 0.1, MAX_SIZE := 0.2, GRAVITY := 1, FRICTION := 1
    WALL_BOUNCE := 1, MAX_VEL := 1, FOLLOW_CURSOR := true, LEADER_EASE := 1 }

/-- A one-particle state whose registry holds no pointer at all (the mouse is
not active). -/
def cexSt : BallState :=
  { pos := [⟨0, 0, 0⟩], vel := [⟨0, 0, 0⟩], siz := [0]
    center := ⟨0, 0, 0⟩, bounds := ⟨3, 4, 2⟩
    im := mkInputManager (some "ballpit") (some true) none }

/-! ### Fluid cursor pointer bookkeeping (ballpit-cursor.js, `WebGLFluidCursor`)

The GPU passes are external kernels; the CPU-side state the claims concern
is the pointer array (with texture coordinates, deltas, `moved` flags and
colours), the colour-cycle timer, and the splats emitted by `_applyInputs`.
`_generateColor()` draws from `Math.random()`; it is modelled by an abstract
colour stream `gen` indexed by a draw counter kept in the state. -/

/-- The pointer objects of `WebGLFluidCursor._createPointer`. -/
structure FPointer where
  id : String
  ptype : String
  texcoordX : ℚ
  texcoordY : ℚ
  prevTexcoordX : ℚ
  prevTexcoordY : ℚ
  deltaX : ℚ
  deltaY : ℚ
  down : Bool
  moved : Bool
  color : Option Color
deriving DecidableEq, Repr

/-- External source of generated colours (`_generateColor`, backed by
`Math.random`): draw `k` of the stream. -/
structure FluidEnv where
  gen : ℕ → Color

/-- The fluid cursor's pointer/colour state: the pointer map keyed by
`_pointerKey(id)` (array order equals map insertion order, since every
`push` is paired with a `set`), the colour timer, the colour-draw counter,
the canvas dimensions (`none` once destroyed), the device pixel ratio and
the configuration fields used here. -/
structure FluidState where
  pointers : List (String × FPointer)
  colorUpdateTimer : ℚ
  rng : ℕ
  canvas : Option (ℚ × ℚ)
  dpr : ℚ
  COLOR_UPDATE_SPEED : ℚ
  SPLAT_FORCE : ℚ
deriving DecidableEq, Repr

/-- Truncation toward zero, as JS `%` uses. -/
def qTrunc (q : ℚ) : ℤ := if 0 ≤ q then Int.floor q else Int.ceil q

/-- JS remainder `a % b` (sign of the dividend). -/
def jsFmod (a b : ℚ) : ℚ := a - b * qTrunc (a / b)

/-- `WebGLFluidCursor._wrap(value, min, max)`. -/
def wrap (value lo hi : ℚ) : ℚ :=
  let range := hi - lo
  if range = 0 then lo else jsFmod (value - lo) range + lo

/-- `_pointerKey(id)`. -/
def fKey (id : String) : String := "mouse:" ++ id

/-- `WebGLFluidCursor._createPointer(type, id)`. -/
def createFPointer (ptype id : String) : FPointer :=
  { id := id, ptype := ptype, texcoordX := 0, texcoordY := 0
    prevTexcoordX := 0, prevTexcoordY := 0, deltaX := 0, deltaY := 0
    down := false, moved := false, color := none }

/-- `WebGLFluidCursor._registerPointer(id, color)`; also the state effect of
`_getOrCreatePointer` (`map.get(key) ?? _registerPointer(id, color)`).  Only
an `Array` colour is adopted (`Array.isArray(color)`). -/
def registerPointerF (fs : FluidState) (id : String) (color : Option Color) :
    FluidState :=
  match lookupA fs.pointers (fKey id) with
  | some _ => fs
  | none =>
      let p := createFPointer "mouse" id
      let p1 := match color with
        | some c => { p with color := some c }
        | none => p
      { fs with pointers := fs.pointers ++ [(fKey id, p1)] }

/-- `_correctDeltaX`. -/
def correctDeltaX (w h d : ℚ) : ℚ := if w / h < 1 then d * (w / h) else d

/-- `_correctDeltaY`. -/
def correctDeltaY (w h d : ℚ) : ℚ := if 1 < w / h then d / (w / h) else d

/-- `WebGLFluidCursor._updatePointerMoveData(pointer, posX, posY, color)`,
addressing the mutated pointer object by its map key.  The final line is
`pointer.color = color || pointer.color || this._generateColor()`; the
colour draw only happens when both are null, as JS short-circuiting does. -/
def updatePointerMoveData (env : FluidEnv) (fs : FluidState) (key : String)
    (posX posY : ℚ) (color : Option Color) : FluidState :=
  match fs.canvas with
  | none => fs
  | some wh =>
      match lookupA fs.pointers key with
      | none => fs
      | some p =>
          let tx := posX / wh.1
          let ty := 1 - posY / wh.2
          let dx := correctDeltaX wh.1 wh.2 (tx - p.texcoordX)
          let dy := correctDeltaY wh.1 wh.2 (ty - p.texcoordY)
          let moved1 := if p.moved then p.moved
            else decide (0 < |dx|) || decide (0 < |dy|)
          let cr : Option Color × ℕ :=
            match color with
            | some c => (some c, fs.rng)
            | none =>
                match p.color with
                | some c => (some c, fs.rng)
                | none => (some (env.gen fs.rng), fs.rng + 1)
          { fs with
              rng := cr.2
              pointers := setA fs.pointers key
                { p with
                    prevTexcoordX := p.texcoordX, prevTexcoordY := p.texcoordY
                    texcoordX := tx, texcoordY := ty
                    deltaX := dx, deltaY := dy
                    moved := moved1, color := cr.1 } }

/-- The `forEach` of `_updateColors`: replace every pointer's colour with a
fresh draw of the generated-hue stream, one draw per pointer in order. -/
def colorCycle (env : FluidEnv) : ℕ → List (String × FPointer) →
    List (String × FPointer)
  | _, [] => []
  | r, e :: t => (e.1, { e.2 with color := some (env.gen r) }) :: colorCycle env (r + 1) t

/-- `WebGLFluidCursor._updateColors(dt)`. -/
def updateColors (env : FluidEnv) (fs : FluidState) (dt : ℚ) : FluidState :=
  let timer := fs.colorUpdateTimer + dt * fs.COLOR_UPDATE_SPEED
  if 1 ≤ timer then
    { fs with
        colorUpdateTimer := wrap timer 0 1
        pointers := colorCycle env fs.rng fs.pointers
        rng := fs.rng + fs.pointers.length }
  else { fs with colorUpdateTimer := timer }

/-- The impulse `_splatPointer` hands to the GPU `_splat` kernel. -/
structure Splat where
  x : ℚ
  y : ℚ
  dx : ℚ
  dy : ℚ
  color : Option Color
deriving DecidableEq, Repr

/-- `_splatPointer(pointer)`: delta times `SPLAT_FORCE`, at the pointer's
texture coordinates, in the pointer's colour. -/
def splatOf (fs : FluidState) (p : FPointer) : Splat :=
  { x := p.texcoordX, y := p.texcoordY
    dx := p.deltaX * fs.SPLAT_FORCE, dy := p.deltaY * fs.SPLAT_FORCE
    color := p.color }

/-- `WebGLFluidCursor._applyInputs()`: every pointer with `moved` set emits a
splat (in array order) and has the flag cleared. -/
def applyInputs (fs : FluidState) : FluidState × List Splat :=
  ({ fs with
      pointers := fs.pointers.map
        (fun e => if e.2.moved then (e.1, { e.2 with moved := false }) else e) },
   (fs.pointers.filter (fun e => e.2.moved)).map (fun e => splatOf fs e.2))

/-- The pointer whose `moved` flag `_handleFluidInput` forces
(`ownerPtr.moved = true`). -/
def setMovedTrue (fs : FluidState) (key : String) : FluidState :=
  match lookupA fs.pointers key with
  | some p => { fs with pointers := setA fs.pointers key { p with moved := true } }
  | none => fs

/-- `InputManager._handleFluidInput(pointer)` acting on its owner
`WebGLFluidCursor` (input-manager.js): scale by the pixel ratio, update the
owner's pointer via `_getOrCreatePointer`/`_updatePointerMoveData`, then
force `ownerPtr.moved = true`.  The owner-method existence checks are
constant true on a live `WebGLFluidCursor`; the canvas guard is the
`!this.owner.canvas` check. -/
def handleFluidInputOwner (env : FluidEnv) (fs : FluidState) (px py : ℚ)
    (color : Option Color) (id : String) : FluidState :=
  match fs.canvas with
  | none => fs
  | some _ =>
      let posX : ℚ := Int.floor (px * fs.dpr)
      let posY : ℚ := Int.floor (py * fs.dpr)
      let id1 := if id = "" then "default" else id
      let fs1 := registerPointerF fs id1 color
      let fs2 := updatePointerMoveData env fs1 (fKey id1) posX posY color
      setMovedTrue fs2 (fKey id1)

/-- A fluid cursor together with its `InputManager`. -/
structure FluidSys where
  im : InputManager
  fs : FluidState

/-- A deterministic stand-in for the `Math.random` colour stream. -/
def demoFluidEnv : FluidEnv := { gen := fun _ => [0, 1, 0] }

/-- A fluid state with no pointers, an 800 × 600 canvas, unit pixel ratio,
and the default `COLOR_UPDATE_SPEED`/`SPLAT_FORCE`; the colour timer sits
just below a wrap. -/
def demoFluidState : FluidState :=
  { pointers := [], colorUpdateTimer := 0.9, rng := 0, canvas := some (800, 600)
    dpr := 1, COLOR_UPDATE_SPEED := 10, SPLAT_FORCE := 6000 }

/-- A fluid state holding one pointer for id `x` whose texture coordinates
already equal the projection of client position (100, 100) on the 800 × 600
canvas, so that a new update at (100, 100) has a zero movement delta. -/
def demoFluidState2 : FluidState :=
  { pointers := [(fKey "x",
      { createFPointer "mouse" "x" with texcoordX := 1/8, texcoordY := 5/6 })]
    colorUpdateTimer := 0, rng := 0, canvas := some (800, 600)
    dpr := 1, COLOR_UPDATE_SPEED := 10, SPLAT_FORCE := 6000 }

/-- A fluid-cursor system whose manager already tracks pointer `x`. -/
def demoFluidSys : FluidSys :=
  { im := runOps (mkInputManager none none none)
      [MOp.update (JVal.num 100) (JVal.num 100) none "x" 0]
    fs := demoFluidState2 }

/-- `updatePointerPosition` on a fluid-cursor system: the manager mutation of
`updatePointerPosition` above, with the fluid branch forwarding to
`_handleFluidInput` on the owner.  The fluid side is modelled for numeric
coordinates (stored `NaN` coordinates would merely poison the texture
coordinates; the registry effect is unchanged). -/
def sysUpdatePointerPosition (env : FluidEnv) (sys : FluidSys) (x y : JVal)
    (color : Option Color) (id : String) (now : ℚ) : FluidSys :=
  if x = JVal.undef ∨ x = JVal.nullv ∨ y = JVal.undef ∨ y = JVal.nullv then sys
  else
    let m1 := getOrCreatePointer sys.im id color
    match lookupA m1.pointers id with
    | none => { sys with im := m1 }
    | some p =>
        let p1 := { p with x := x, y := y, lastSeen := now
                           color := jsOrColor color p.color }
        let m2 := { m1 with pointers := setA m1.pointers id p1
                            totalUpdates := m1.totalUpdates + 1 }
        if m2.cursorType = "ballpit" then
          { im := handleBallpitInput m2 p1, fs := sys.fs }
        else
          { im := m2
            fs := match p1.x, p1.y with
              | JVal.num a, JVal.num b =>
                  handleFluidInputOwner env sys.fs a b p1.color p1.id
              | _, _ => sys.fs }

/-! ### Concrete demonstration states -/

/-- A short ballpit session: users `a` and `b` send one update each. -/
def demoOps : List MOp :=
  [MOp.update (JVal.num 1) (JVal.num 1) none "a" 0,
   MOp.update (JVal.num 1) (JVal.num 1) none "b" 1]

/-- The manager reached by `demoOps` from a ballpit configuration with ball
assignment enabled. -/
def demoBallpitManager : InputManager :=
  runOps (mkInputManager (some "ballpit") (some true) none) demoOps

/-- The registry entry of user `a` in `demoBallpitManager`. -/
def demoPointerA : String × Pointer :=
  ("a", { id := "a", x := JVal.num 1, y := JVal.num 1, lastSeen := 0
          color := none, ballIndex := some 1 })

/-- A fluid-configuration manager holding `mouse` at t = 100 and `eyes-1` at
t = 200, the configuration of testable property P3. -/
def demoPriorityManager : InputManager :=
  runOps (mkInputManager none none none)
    [MOp.update (JVal.num 100) (JVal.num 100) none "mouse" 100,
     MOp.update (JVal.num 50) (JVal.num 50) none "eyes-1" 200]

/-! ### Invariant predicates -/

/-- Invariant tying the ball-index counter, the assignment map and the live
pointers together: the counter stays positive, every assigned index lies in
`[1, counter)`, assigned indices are pairwise distinct, pointer keys are
unique, every pointer's `id` field matches its key, the mouse pointer holds
index 0, and a non-mouse pointer's recorded index always agrees with the
assignment map. -/
def SlotInv (m : InputManager) : Prop :=
  1 ≤ m.nextAvailableBallIndex ∧
  (∀ e ∈ m.eyegazeBallIndices, 1 ≤ e.2 ∧ e.2 < m.nextAvailableBallIndex) ∧
  (m.eyegazeBallIndices.map Prod.snd).Nodup ∧
  (m.pointers.map Prod.fst).Nodup ∧
  (∀ e ∈ m.pointers, e.2.id = e.1) ∧
  (∀ e ∈ m.pointers, e.1 = "mouse" → e.2.ballIndex = some 0) ∧
  (∀ e ∈ m.pointers, e.1 ≠ "mouse" → ∀ n, e.2.ballIndex = some n →
      lookupA m.eyegazeBallIndices e.1 = some n)

instance (m : InputManager) : Decidable (SlotInv m) := by
  unfold SlotInv; infer_instance

/-- A ball index `n` is dead in manager `m`: strictly below the allocation
counter, and held by no current assignment.  Releases establish this, and no
later operation short of `reset` can revive `n`. -/
def FreedIdx (n : ℕ) (m : InputManager) : Prop :=
  n < m.nextAvailableBallIndex ∧ ∀ e ∈ m.eyegazeBallIndices, e.2 ≠ n

/-! ### Association-list lemmas -/

theorem lookupA_mem {α : Type} {l : List (String × α)} {k : String} {v : α}
    (h : lookupA l k = some v) : (k, v) ∈ l := by
  induction l with
  | nil => simp [lookupA] at h
  | cons e t ih =>
    obtain ⟨k1, v1⟩ := e
    by_cases hk : k1 = k
    · subst hk
      simp [lookupA] at h
      simp [h]
    · simp [lookupA, hk] at h
      exact List.mem_cons_of_mem _ (ih h)

theorem lookupA_mem_vals {α : Type} {l : List (String × α)} {k : String} {v : α}
    (h : lookupA l k = some v) : v ∈ l.map Prod.snd := by
  have := lookupA_mem h
  exact List.mem_map.2 ⟨(k, v), this, rfl⟩

theorem lookupA_eq_none {α : Type} {l : List (String × α)} {k : String} :
    lookupA l k = none ↔ k ∉ l.map Prod.fst := by
  induction l with
  | nil => simp [lookupA]
  | cons e t ih =>
    obtain ⟨k1, v1⟩ := e
    by_cases hk : k1 = k
    · subst hk; simp [lookupA]
    · simp [lookupA, hk, ih, Ne.symm hk]

theorem lookupA_append_left {α : Type} {l l2 : List (String × α)} {k : String}
    {v : α} (h : lookupA l k = some v) : lookupA (l ++ l2) k = some v := by
  induction l with
  | nil => simp [lookupA] at h
  | cons e t ih =>
    obtain ⟨k1, v1⟩ := e
    by_cases hk : k1 = k
    · subst hk; simp [lookupA] at h ⊢; exact h
    · simp [lookupA, hk] at h ⊢; exact ih h

theorem lookupA_append_of_none {α : Type} {l : List (String × α)}
    {k : String} (l2 : List (String × α)) (h : lookupA l k = none) :
    lookupA (l ++ l2) k = lookupA l2 k := by
  induction l with
  | nil => simp
  | cons e t ih =>
    obtain ⟨k1, v1⟩ := e
    by_cases hk : k1 = k
    · subst hk; simp [lookupA] at h
    · simp [lookupA, hk] at h ⊢; exact ih h

theorem mem_setA {α : Type} {l : List (String × α)} {k : String} {v : α}
    {e : String × α} (h : e ∈ setA l k v) : e = (k, v) ∨ e ∈ l := by
  induction l with
  | nil => simp [setA] at h; simp [h]
  | cons e1 t ih =>
    obtain ⟨k1, v1⟩ := e1
    by_cases hk : k1 = k
    · subst hk
      simp [setA] at h
      rcases h with h | h
      · exact Or.inl h
      · exact Or.inr (List.mem_cons_of_mem _ h)
    · simp [setA, hk] at h
      rcases h with h | h
      · exact Or.inr (by simp [h])
      · rcases ih h with h1 | h1
        · exact Or.inl h1
        · exact Or.inr (List.mem_cons_of_mem _ h1)

theorem lookupA_setA_self {α : Type} (l : List (String × α)) (k : String) (v : α) :
    lookupA (setA l k v) k = some v := by
  induction l with
  | nil => simp [setA, lookupA]
  | cons e t ih =>
    obtain ⟨k1, v1⟩ := e
    by_cases hk : k1 = k
    · subst hk; simp [setA, lookupA]
    · simp [setA, lookupA, hk]; exact ih

theorem lookupA_setA_ne {α : Type} {l : List (String × α)} {k k1 : String}
    (v : α) (h : k1 ≠ k) : lookupA (setA l k v) k1 = lookupA l k1 := by
  induction l with
  | nil => simp [setA, lookupA, Ne.symm h]
  | cons e t ih =>
    obtain ⟨k2, v2⟩ := e
    by_cases hk : k2 = k
    · subst hk; simp [lookupA, setA, Ne.symm h]
    · simp [setA, lookupA, hk]
      by_cases hk1 : k2 = k1
      · simp [hk1]
      · simp [hk1]; exact ih

theorem mem_keys_setA {α : Type} {l : List (String × α)} {k : String} {v : α}
    {x : String} (h : x ∈ (setA l k v).map Prod.fst) :
    x ∈ l.map Prod.fst ∨ x = k := by
  rcases List.mem_map.1 h with ⟨e, he, hex⟩
  rcases mem_setA he with h1 | h1
  · right; rw [← hex, h1]
  · left; exact List.mem_map.2 ⟨e, h1, hex⟩

theorem nodup_keys_setA {α : Type} {l : List (String × α)} (k : String) (v : α)
    (h : (l.map Prod.fst).Nodup) : ((setA l k v).map Prod.fst).Nodup := by
  induction l with
  | nil => simp [setA]
  | cons e t ih =>
    obtain ⟨k1, v1⟩ := e
    rw [List.map_cons, List.nodup_cons] at h
    by_cases hk : k1 = k
    · subst hk
      rw [setA, if_pos rfl, List.map_cons, List.nodup_cons]
      exact h
    · rw [setA, if_neg hk, List.map_cons, List.nodup_cons]
      refine ⟨fun hx => ?_, ih h.2⟩
      rcases mem_keys_setA hx with h1 | h1
      · exact h.1 h1
      · exact hk h1

theorem mem_eraseA {α : Type} {l : List (String × α)} {k : String}
    {e : String × α} (h : e ∈ eraseA l k) : e ∈ l ∧ e.1 ≠ k := by
  unfold eraseA at h
  have := List.mem_filter.1 h
  refine ⟨this.1, ?_⟩
  have h2 := this.2
  simp at h2
  exact h2

theorem lookupA_eraseA_ne {α : Type} {l : List (String × α)} {k k1 : String}
    (h : k1 ≠ k) : lookupA (eraseA l k) k1 = lookupA l k1 := by
  induction l with
  | nil => simp [eraseA, lookupA]
  | cons e t ih =>
    obtain ⟨k2, v2⟩ := e
    by_cases hk : k2 = k
    · subst hk
      simp [eraseA, lookupA, Ne.symm h, List.filter]
      exact ih
    · by_cases hk1 : k2 = k1
      · subst hk1
        simp [eraseA, lookupA, List.filter, hk]
      · simp [eraseA, lookupA, List.filter, hk, hk1] at ih ⊢
        exact ih

theorem keys_eraseA_sublist {α : Type} (l : List (String × α)) (k : String) :
    ((eraseA l k).map Prod.fst).Sublist (l.map Prod.fst) :=
  List.Sublist.map Prod.fst (List.filter_sublist l)

theorem vals_eraseA_sublist {α : Type} (l : List (String × α)) (k : String) :
    ((eraseA l k).map Prod.snd).Sublist (l.map Prod.snd) :=
  List.Sublist.map Prod.snd (List.filter_sublist l)

theorem lookupA_inj_of_vals_nodup {α : Type} {l : List (String × α)}
    (hnd : (l.map Prod.snd).Nodup) {k1 k2 : String} {v : α}
    (h1 : lookupA l k1 = some v) (h2 : lookupA l k2 = some v) : k1 = k2 := by
  induction l with
  | nil => simp [lookupA] at h1
  | cons e t ih =>
    obtain ⟨k, a⟩ := e
    rw [List.map_cons, List.nodup_cons] at hnd
    by_cases hk1 : k = k1
    · by_cases hk2 : k = k2
      · rw [← hk1, hk2]
      · subst hk1
        simp [lookupA] at h1
        simp [lookupA, hk2] at h2
        exact absurd (h1 ▸ lookupA_mem_vals h2) hnd.1
    · by_cases hk2 : k = k2
      · subst hk2
        simp [lookupA] at h2
        simp [lookupA, hk1] at h1
        exact absurd (h2 ▸ lookupA_mem_vals h1) hnd.1
      · simp [lookupA, hk1] at h1
        simp [lookupA, hk2] at h2
        exact ih hnd.2 h1 h2

/-! ### The slot invariant -/

theorem slotInv_mk (ct : Option String) (ub : Option Bool) (it : Option ℚ) :
    SlotInv (mkInputManager ct ub it) := by
  refine ⟨le_refl 1, ?_, ?_, ?_, ?_, ?_, ?_⟩ <;> simp [mkInputManager]

theorem slotInv_getOrCreate {m : InputManager} (hm : SlotInv m) (id : String)
    (c : Option Color) : SlotInv (getOrCreatePointer m id c) := by
  obtain ⟨h1, h2, h3, h4, h5, h6, h7⟩ := hm
  unfold getOrCreatePointer
  cases hl : lookupA m.pointers id with
  | some p => exact ⟨h1, h2, h3, h4, h5, h6, h7⟩
  | none =>
      have hid : id ∉ m.pointers.map Prod.fst := lookupA_eq_none.1 hl
      refine ⟨h1, h2, h3, ?_, ?_, ?_, ?_⟩
      · rw [List.map_append, List.nodup_append]
        exact ⟨h4, List.nodup_singleton _, by
          intro a ha hb
          simp at hb
          exact hid (hb ▸ ha)⟩
      · intro e he
        rcases List.mem_append.1 he with h | h
        · exact h5 e h
        · simp at h
          simp [h, createPointer]
      · intro e he hke
        rcases List.mem_append.1 he with h | h
        · exact h6 e h hke
        · simp at h
          simp [h, createPointer]
          simp [h] at hke
          simp [hke]
      · intro e he hke n hn
        rcases List.mem_append.1 he with h | h
        · exact h7 e h hke n hn
        · simp at h
          simp [h] at hke hn
          simp [createPointer, hke] at hn

theorem slotInv_assign {m : InputManager} (hm : SlotInv m) {u : String}
    (hu : u ≠ "mouse") : SlotInv (assignBallIndex m u) := by
  obtain ⟨h1, h2, h3, h4, h5, h6, h7⟩ := hm
  unfold assignBallIndex
  cases he : lookupA m.eyegazeBallIndices u with
  | some v => exact ⟨h1, h2, h3, h4, h5, h6, h7⟩
  | none =>
      have hcnt : ∀ e ∈ m.eyegazeBallIndices, e.2 ≠ m.nextAvailableBallIndex :=
        fun e hme => Nat.ne_of_lt (h2 e hme).2
      have hebi2 : ∀ e ∈ m.eyegazeBallIndices ++ [(u, m.nextAvailableBallIndex)],
          1 ≤ e.2 ∧ e.2 < m.nextAvailableBallIndex + 1 := by
        intro e hme
        rcases List.mem_append.1 hme with h | h
        · exact ⟨(h2 e h).1, Nat.lt_succ_of_lt (h2 e h).2⟩
        · simp at h
          simp [h, h1]
      have hebi3 : ((m.eyegazeBallIndices ++ [(u, m.nextAvailableBallIndex)]).map
          Prod.snd).Nodup := by
        rw [List.map_append, List.nodup_append]
        refine ⟨h3, List.nodup_singleton _, ?_⟩
        intro a ha hb
        simp at hb
        rcases List.mem_map.1 ha with ⟨e, hme, hea⟩
        exact hcnt e hme (hea.trans hb)
      have hlk : lookupA (m.eyegazeBallIndices ++ [(u, m.nextAvailableBallIndex)]) u
          = some m.nextAvailableBallIndex := by
        rw [lookupA_append_of_none _ he]
        simp [lookupA]
      have hlk2 : ∀ k n, lookupA m.eyegazeBallIndices k = some n →
          lookupA (m.eyegazeBallIndices ++ [(u, m.nextAvailableBallIndex)]) k = some n :=
        fun k n h => lookupA_append_left h
      cases hp : lookupA m.pointers u with
      | none =>
          refine ⟨Nat.le_succ_of_le h1, hebi2, hebi3, h4, h5, h6, ?_⟩
          intro e hme hke n hn
          exact hlk2 _ _ (h7 e hme hke n hn)
      | some p =>
          have hpm : (u, p) ∈ m.pointers := lookupA_mem hp
          refine ⟨Nat.le_succ_of_le h1, hebi2, hebi3, nodup_keys_setA _ _ h4, ?_, ?_, ?_⟩
          · intro e hme
            rcases mem_setA hme with h | h
            · simp [h]
              exact h5 (u, p) hpm
            · exact h5 e h
          · intro e hme hke
            rcases mem_setA hme with h | h
            · rw [h] at hke
              exact absurd hke hu
            · exact h6 e h hke
          · intro e hme hke n hn
            rcases mem_setA hme with h | h
            · rw [h] at hn ⊢
              simp at hn
              simp [← hn]
              exact hlk
            · exact hlk2 _ _ (h7 e h hke n hn)

theorem slotInv_release {m : InputManager} (hm : SlotInv m) (u : String) :
    SlotInv (releaseBallIndex m u) := by
  obtain ⟨h1, h2, h3, h4, h5, h6, h7⟩ := hm
  unfold releaseBallIndex
  cases he : lookupA m.eyegazeBallIndices u with
  | none => exact ⟨h1, h2, h3, h4, h5, h6, h7⟩
  | some v =>
      refine ⟨h1, ?_, List.Nodup.sublist (vals_eraseA_sublist _ _) h3,
        List.Nodup.sublist (keys_eraseA_sublist _ _) h4, ?_, ?_, ?_⟩
      · intro e hme
        exact h2 e (mem_eraseA hme).1
      · intro e hme
        exact h5 e (mem_eraseA hme).1
      · intro e hme
        exact h6 e (mem_eraseA hme).1
      · intro e hme hke n hn
        obtain ⟨hmem, hne⟩ := mem_eraseA hme
        rw [lookupA_eraseA_ne hne]
        exact h7 e hmem hke n hn

theorem slotInv_erasePointers {m : InputManager} (hm : SlotInv m) (u : String) :
    SlotInv { m with pointers := eraseA m.pointers u } := by
  obtain ⟨h1, h2, h3, h4, h5, h6, h7⟩ := hm
  refine ⟨h1, h2, h3, List.Nodup.sublist (keys_eraseA_sublist _ _) h4, ?_, ?_, ?_⟩
  · intro e hme
    exact h5 e (mem_eraseA hme).1
  · intro e hme
    exact h6 e (mem_eraseA hme).1
  · intro e hme hke n hn
    exact h7 e (mem_eraseA hme).1 hke n hn

theorem slotInv_removeOne {m : InputManager} (hm : SlotInv m) (u : String) :
    SlotInv (removeOne m u) := by
  unfold removeOne
  by_cases hb : m.useBallAssignment
  · simp [hb]
    exact slotInv_release hm u
  · simp [hb]
    exact slotInv_erasePointers hm u

theorem slotInv_removeFold {m : InputManager} (hm : SlotInv m)
    (ids : List String) : SlotInv (ids.foldl removeOne m) := by
  induction ids generalizing m with
  | nil => exact hm
  | cons a t ih => exact ih (slotInv_removeOne hm a)

theorem slotInv_handleBallpit {m : InputManager} (hm : SlotInv m) (p : Pointer) :
    SlotInv (handleBallpitInput m p) := by
  unfold handleBallpitInput
  by_cases h : m.useBallAssignment = true ∧ p.id ≠ "mouse"
  · rw [if_pos h]
    exact slotInv_assign hm h.2
  · rw [if_neg h]
    exact hm

theorem slotInv_update {m : InputManager} (hm : SlotInv m) (x y : JVal)
    (c : Option Color) (id : String) (now : ℚ) :
    SlotInv (updatePointerPosition m x y c id now) := by
  unfold updatePointerPosition
  by_cases hg : x = JVal.undef ∨ x = JVal.nullv ∨ y = JVal.undef ∨ y = JVal.nullv
  · rw [if_pos hg]
    exact hm
  · rw [if_neg hg]
    dsimp only
    have hm1 := slotInv_getOrCreate hm id c
    cases hl : lookupA (getOrCreatePointer m id c).pointers id with
    | none => exact hm1
    | some p =>
        dsimp only
        obtain ⟨h1, h2, h3, h4, h5, h6, h7⟩ := hm1
        have hpm := lookupA_mem hl
        have hpid : p.id = id := h5 (id, p) hpm
        have hm2 : SlotInv
            { getOrCreatePointer m id c with
              pointers := setA (getOrCreatePointer m id c).pointers id
                { p with x := x, y := y, lastSeen := now, color := jsOrColor c p.color }
              totalUpdates := (getOrCreatePointer m id c).totalUpdates + 1 } := by
          refine ⟨h1, h2, h3, nodup_keys_setA _ _ h4, ?_, ?_, ?_⟩
          · intro e hme
            rcases mem_setA hme with h | h
            · simp [h, hpid]
            · exact h5 e h
          · intro e hme hke
            rcases mem_setA hme with h | h
            · simp [h] at hke ⊢
              exact h6 (id, p) hpm hke
            · exact h6 e h hke
          · intro e hme hke n hn
            rcases mem_setA hme with h | h
            · simp [h] at hke hn ⊢
              exact h7 (id, p) hpm hke n hn
            · exact h7 e h hke n hn
        split
        · exact slotInv_handleBallpit hm2 _
        · exact hm2

theorem slotInv_applyOp {m : InputManager} (hm : SlotInv m) (op : MOp) :
    SlotInv (applyOp m op) := by
  cases op with
  | update x y c id now => exact slotInv_update hm x y c id now
  | remove id =>
      unfold applyOp removePointer
      by_cases hp : (lookupA m.pointers id).isSome
      · simp only [if_pos hp]
        by_cases hb : m.useBallAssignment
        · simp [hb]
          exact slotInv_release hm id
        · simp [hb]
          exact slotInv_erasePointers hm id
      · simp only [if_neg hp]
        exact hm
  | cleanup t now => exact slotInv_removeFold hm _
  | clearNonMouse => exact slotInv_removeFold hm _
  | doReset =>
      refine ⟨le_refl 1, ?_, ?_, ?_, ?_, ?_, ?_⟩ <;> simp [applyOp, resetManager]
  | setType t =>
      obtain ⟨h1, h2, h3, h4, h5, h6, h7⟩ := hm
      exact ⟨h1, h2, h3, h4, h5, h6, h7⟩

theorem slotInv_runOps {m : InputManager} (hm : SlotInv m) (ops : List MOp) :
    SlotInv (runOps m ops) := by
  induction ops generalizing m with
  | nil => exact hm
  | cons a t ih => exact ih (slotInv_applyOp hm a)

/-! ### Freed ball indices stay dead (short of a reset) -/

theorem freedIdx_assign {n : ℕ} {m : InputManager} (h : FreedIdx n m) (u : String) :
    FreedIdx n (assignBallIndex m u) := by
  obtain ⟨h1, h2⟩ := h
  unfold assignBallIndex
  cases he : lookupA m.eyegazeBallIndices u with
  | some v => exact ⟨h1, h2⟩
  | none =>
      refine ⟨Nat.lt_succ_of_lt h1, ?_⟩
      intro e hme
      rcases List.mem_append.1 hme with hh | hh
      · exact h2 e hh
      · simp at hh
        simp [hh]
        omega

theorem freedIdx_release {n : ℕ} {m : InputManager} (h : FreedIdx n m) (u : String) :
    FreedIdx n (releaseBallIndex m u) := by
  obtain ⟨h1, h2⟩ := h
  unfold releaseBallIndex
  cases he : lookupA m.eyegazeBallIndices u with
  | some v =>
      exact ⟨h1, fun e hme => h2 e (mem_eraseA hme).1⟩
  | none => exact ⟨h1, h2⟩

theorem freedIdx_removeOne {n : ℕ} {m : InputManager} (h : FreedIdx n m)
    (u : String) : FreedIdx n (removeOne m u) := by
  unfold removeOne
  by_cases hb : m.useBallAssignment
  · simp [hb]
    exact freedIdx_release h u
  · simp [hb]
    exact h

theorem freedIdx_removeFold {n : ℕ} {m : InputManager} (h : FreedIdx n m)
    (ids : List String) : FreedIdx n (ids.foldl removeOne m) := by
  induction ids generalizing m with
  | nil => exact h
  | cons a t ih => exact ih (freedIdx_removeOne h a)

theorem freedIdx_handleBallpit {n : ℕ} {m : InputManager} (h : FreedIdx n m)
    (p : Pointer) : FreedIdx n (handleBallpitInput m p) := by
  unfold handleBallpitInput
  by_cases hg : m.useBallAssignment = true ∧ p.id ≠ "mouse"
  · rw [if_pos hg]
    exact freedIdx_assign h _
  · rw [if_neg hg]
    exact h

theorem freedIdx_update {n : ℕ} {m : InputManager} (h : FreedIdx n m)
    (x y : JVal) (c : Option Color) (id : String) (now : ℚ) :
    FreedIdx n (updatePointerPosition m x y c id now) := by
  unfold updatePointerPosition
  by_cases hg : x = JVal.undef ∨ x = JVal.nullv ∨ y = JVal.undef ∨ y = JVal.nullv
  · rw [if_pos hg]
    exact h
  · rw [if_neg hg]
    dsimp only
    have h1 : FreedIdx n (getOrCreatePointer m id c) := by
      unfold getOrCreatePointer
      cases lookupA m.pointers id with
      | some p => exact h
      | none => exact h
    cases hl : lookupA (getOrCreatePointer m id c).pointers id with
    | none => exact h1
    | some p =>
        dsimp only
        split
        · refine freedIdx_handleBallpit ?_ _
          exact ⟨h1.1, h1.2⟩
        · exact ⟨h1.1, h1.2⟩

theorem freedIdx_applyOp {n : ℕ} {m : InputManager} (h : FreedIdx n m)
    {op : MOp} (hop : op ≠ MOp.doReset) : FreedIdx n (applyOp m op) := by
  cases op with
  | update x y c id now => exact freedIdx_update h x y c id now
  | remove id =>
      simp only [applyOp]
      unfold removePointer
      by_cases hp : (lookupA m.pointers id).isSome
      · rw [if_pos hp]
        by_cases hb : m.useBallAssignment
        · simp [hb]
          exact freedIdx_release h id
        · simp [hb]
          exact ⟨h.1, h.2⟩
      · rw [if_neg hp]
        exact h
  | cleanup t now => exact freedIdx_removeFold h _
  | clearNonMouse => exact freedIdx_removeFold h _
  | doReset => exact absurd rfl hop
  | setType t => exact h

theorem freedIdx_runOps {n : ℕ} {m : InputManager} (h : FreedIdx n m)
    {ops : List MOp} (hops : MOp.doReset ∉ ops) : FreedIdx n (runOps m ops) := by
  induction ops generalizing m with
  | nil => exact h
  | cons a t ih =>
      have ha : a ≠ MOp.doReset := fun hc => hops (hc ▸ List.mem_cons_self a t)
      exact ih (freedIdx_applyOp h ha) (fun hc => hops (List.mem_cons_of_mem _ hc))

theorem release_establishes_freedIdx {m : InputManager} (hm : SlotInv m)
    {u : String} {v : ℕ} (hv : lookupA m.eyegazeBallIndices u = some v) :
    FreedIdx v (releaseBallIndex m u) := by
  obtain ⟨h1, h2, h3, h4, h5, h6, h7⟩ := hm
  have hmem : (u, v) ∈ m.eyegazeBallIndices := lookupA_mem hv
  unfold releaseBallIndex
  rw [hv]
  refine ⟨(h2 _ hmem).2, ?_⟩
  intro e hme he
  obtain ⟨hmem2, hne⟩ := mem_eraseA hme
  have : e = (u, v) :=
    List.inj_on_of_nodup_map h3 hmem2 hmem (by simpa using he)
  exact hne (by rw [this])

/-! ### Field preservation through ball assignment -/

theorem assign_preserves_fields {m : InputManager} (u : String) {k : String}
    {p : Pointer} (hp : lookupA m.pointers k = some p) :
    ∃ q, lookupA (assignBallIndex m u).pointers k = some q ∧
      q.x = p.x ∧ q.y = p.y ∧ q.lastSeen = p.lastSeen ∧ q.color = p.color := by
  unfold assignBallIndex
  cases he : lookupA m.eyegazeBallIndices u with
  | some v => exact ⟨p, hp, rfl, rfl, rfl, rfl⟩
  | none =>
      dsimp only
      cases hpu : lookupA m.pointers u with
      | none => exact ⟨p, hp, rfl, rfl, rfl, rfl⟩
      | some pu =>
          dsimp only
          by_cases hk : k = u
          · subst hk
            rw [hp] at hpu
            cases hpu
            exact ⟨_, lookupA_setA_self _ _ _, rfl, rfl, rfl, rfl⟩
          · rw [lookupA_setA_ne _ hk]
            exact ⟨p, hp, rfl, rfl, rfl, rfl⟩

theorem handleBallpit_preserves_fields {m : InputManager} (pb : Pointer)
    {k : String} {p : Pointer} (hp : lookupA m.pointers k = some p) :
    ∃ q, lookupA (handleBallpitInput m pb).pointers k = some q ∧
      q.x = p.x ∧ q.y = p.y ∧ q.lastSeen = p.lastSeen ∧ q.color = p.color := by
  unfold handleBallpitInput
  by_cases hg : m.useBallAssignment = true ∧ pb.id ≠ "mouse"
  · rw [if_pos hg]
    exact assign_preserves_fields _ hp
  · rw [if_neg hg]
    exact ⟨p, hp, rfl, rfl, rfl, rfl⟩

/-! ### The target-pointer fold -/

theorem latestFold_ge (l : List (String × Pointer)) (acc : Option Pointer × ℚ) :
    acc.2 ≤ (l.foldl latestStep acc).2 ∧
    ∀ e ∈ l, e.2.lastSeen ≤ (l.foldl latestStep acc).2 := by
  induction l generalizing acc with
  | nil => simp
  | cons a t ih =>
      rw [List.foldl_cons]
      have hstep : acc.2 ≤ (latestStep acc a).2 ∧
          a.2.lastSeen ≤ (latestStep acc a).2 := by
        unfold latestStep
        by_cases h : acc.2 < a.2.lastSeen
        · rw [if_pos h]
          exact ⟨le_of_lt h, le_refl _⟩
        · rw [if_neg h]
          exact ⟨le_refl _, le_of_not_lt h⟩
      obtain ⟨ih1, ih2⟩ := ih (latestStep acc a)
      refine ⟨le_trans hstep.1 ih1, ?_⟩
      intro e he
      rcases List.mem_cons.1 he with h | h
      · rw [h]
        exact le_trans hstep.2 ih1
      · exact ih2 e h

theorem latestFold_result (l : List (String × Pointer)) (acc : Option Pointer × ℚ) :
    l.foldl latestStep acc = acc ∨
    ∃ e ∈ l, l.foldl latestStep acc = (some e.2, e.2.lastSeen) := by
  induction l generalizing acc with
  | nil => exact Or.inl rfl
  | cons a t ih =>
      rw [List.foldl_cons]
      rcases ih (latestStep acc a) with h | ⟨e, he, heq⟩
      · rw [h]
        unfold latestStep
        by_cases hc : acc.2 < a.2.lastSeen
        · rw [if_pos hc]
          exact Or.inr ⟨a, List.mem_cons_self _ _, rfl⟩
        · rw [if_neg hc]
          exact Or.inl rfl
      · exact Or.inr ⟨e, List.mem_cons_of_mem _ he, heq⟩

/-! ### Slot uniqueness from the invariant -/

theorem slotInv_unique {m : InputManager} (hm : SlotInv m) :
    (∀ e1 ∈ m.pointers, ∀ e2 ∈ m.pointers, ∀ n : ℕ,
       e1.2.ballIndex = some n → e2.2.ballIndex = some n → e1.1 = e2.1) ∧
    (∀ e ∈ m.pointers, e.1 ≠ "mouse" → e.2.ballIndex ≠ some 0) := by
  obtain ⟨h1, h2, h3, h4, h5, h6, h7⟩ := hm
  have hzero : ∀ e ∈ m.pointers, e.1 ≠ "mouse" → e.2.ballIndex ≠ some 0 := by
    intro e he hne h0
    have hv := lookupA_mem (h7 e he hne 0 h0)
    have := (h2 _ hv).1
    omega
  refine ⟨?_, hzero⟩
  intro e1 he1 e2 he2 n hn1 hn2
  by_cases hk1 : e1.1 = "mouse"
  · by_cases hk2 : e2.1 = "mouse"
    · rw [hk1, hk2]
    · have h0 : e1.2.ballIndex = some 0 := h6 e1 he1 hk1
      rw [hn1] at h0
      cases h0
      exact absurd hn2 (hzero e2 he2 hk2)
  · by_cases hk2 : e2.1 = "mouse"
    · have h0 : e2.2.ballIndex = some 0 := h6 e2 he2 hk2
      rw [hn2] at h0
      cases h0
      exact absurd hn1 (hzero e1 he1 hk1)
    · exact lookupA_inj_of_vals_nodup h3 (h7 e1 he1 hk1 n hn1) (h7 e2 he2 hk2 n hn2)

theorem lookupA_getOrCreate (m : InputManager) (id : String) (c : Option Color) :
    ∃ p, lookupA (getOrCreatePointer m id c).pointers id = some p := by
  unfold getOrCreatePointer
  cases hl : lookupA m.pointers id with
  | some p => exact ⟨p, hl⟩
  | none =>
      dsimp only
      rw [lookupA_append_of_none _ hl]
      simp [lookupA]

/-! ### Claim theorems -/

/-- C1, counterexample: `updatePointerPosition(NaN, 5, null, "x")` does not
leave the registry unchanged — no pointer `x` existed before the call and one
exists after it, because the guard only rejects `undefined`/`null`
coordinates, not non-finite numbers. -/
theorem C1_counterexample :
    hasPointer (updatePointerPosition (mkInputManager none none none)
      JVal.nan (JVal.num 5) none "x" 100) "x" = true ∧
    hasPointer (mkInputManager none none none) "x" = false := by
  decide

/-- C1, amended: `updatePointerPosition` returns without mutating the manager
exactly when a coordinate is missing (`undefined` or `null`); every other
call — non-finite `NaN` coordinates included — stores the given coordinates
on the pointer for `id`, creating it if needed, and never raises (the
operation is a total function). -/
theorem C1_amended (m : InputManager) (x y : JVal) (c : Option Color)
    (id : String) (now : ℚ) :
    (x = JVal.undef ∨ x = JVal.nullv ∨ y = JVal.undef ∨ y = JVal.nullv →
       updatePointerPosition m x y c id now = m) ∧
    (x ≠ JVal.undef → x ≠ JVal.nullv → y ≠ JVal.undef → y ≠ JVal.nullv →
       ∃ q, getPointer (updatePointerPosition m x y c id now) id = some q ∧
         q.x = x ∧ q.y = y ∧ q.lastSeen = now) := by
  constructor
  · intro hg
    unfold updatePointerPosition
    rw [if_pos hg]
  · intro h1 h2 h3 h4
    have hg : ¬(x = JVal.undef ∨ x = JVal.nullv ∨ y = JVal.undef ∨ y = JVal.nullv) := by
      simp [h1, h2, h3, h4]
    unfold updatePointerPosition
    rw [if_neg hg]
    dsimp only
    obtain ⟨p, hp⟩ := lookupA_getOrCreate m id c
    rw [hp]
    dsimp only
    have hset : lookupA (setA (getOrCreatePointer m id c).pointers id
        { p with x := x, y := y, lastSeen := now, color := jsOrColor c p.color }) id
        = some { p with x := x, y := y, lastSeen := now, color := jsOrColor c p.color } :=
      lookupA_setA_self _ _ _
    split
    · obtain ⟨q, hq, hqx, hqy, hqt, _⟩ :=
        handleBallpit_preserves_fields
          (m := { getOrCreatePointer m id c with
                    pointers := setA (getOrCreatePointer m id c).pointers id
                      { p with x := x, y := y, lastSeen := now
                               color := jsOrColor c p.color }
                    totalUpdates := (getOrCreatePointer m id c).totalUpdates + 1 })
          _ hset
      exact ⟨q, hq, by rw [hqx], by rw [hqy], by rw [hqt]⟩
    · exact ⟨_, hset, rfl, rfl, rfl⟩

/-- Witness for the amended C1 theorem: a missing coordinate is a no-op, and
a numeric update stores its coordinates. -/
theorem C1_amended_witness :
    updatePointerPosition (mkInputManager none none none) JVal.undef (JVal.num 5)
      none "x" 100 = mkInputManager none none none ∧
    ∃ q, getPointer (updatePointerPosition (mkInputManager none none none)
        (JVal.num 3) (JVal.num 5) none "x" 100) "x" = some q ∧
      q.x = JVal.num 3 ∧ q.y = JVal.num 5 ∧ q.lastSeen = 100 :=
  ⟨(C1_amended (mkInputManager none none none) JVal.undef (JVal.num 5) none "x" 100).1
      (Or.inl rfl),
   (C1_amended (mkInputManager none none none) (JVal.num 3) (JVal.num 5) none "x" 100).2
      (by decide) (by decide) (by decide) (by decide)⟩

/-- C2, counterexample: allocate slots for `a` (slot 1) and `b` (slot 2),
release `a`, then allocate for `c`: the code hands out 3, although slot 1 is
free and is the lowest unused index ≥ 1, and slot 1 is never reused. -/
theorem C2_counterexample :
    (let m2 := demoBallpitManager
     let m3 := (removePointer m2 "a").1
     let m4 := updatePointerPosition m3 (JVal.num 1) (JVal.num 1) none "c" 2
     lookupA m2.eyegazeBallIndices "a" = some 1 ∧
     lookupA m3.eyegazeBallIndices "a" = none ∧
     lookupA m4.eyegazeBallIndices "c" = some 3 ∧
     ∀ e ∈ m4.eyegazeBallIndices, e.2 ≠ 1) := by
  decide

/-- C2, amended: allocation is idempotent (a pointer that already holds a
slot keeps it and the manager is unchanged); a pointer without a slot
receives the current counter value — an index ≥ 1 held by no live
assignment, and the counter increments — but an index freed by a release is
never handed out again by any later operation sequence that contains no
`reset`, so the assigned index is the lowest unused one only while no
release has ever occurred. -/
theorem C2_amended (m : InputManager) (hm : SlotInv m) (u : String) :
    (∀ v, lookupA m.eyegazeBallIndices u = some v → assignBallIndex m u = m) ∧
    (lookupA m.eyegazeBallIndices u = none →
       lookupA (assignBallIndex m u).eyegazeBallIndices u
           = some m.nextAvailableBallIndex ∧
       1 ≤ m.nextAvailableBallIndex ∧
       (∀ e ∈ m.eyegazeBallIndices, e.2 ≠ m.nextAvailableBallIndex) ∧
       (assignBallIndex m u).nextAvailableBallIndex
           = m.nextAvailableBallIndex + 1) ∧
    (∀ v, lookupA m.eyegazeBallIndices u = some v →
       ∀ ops, MOp.doReset ∉ ops →
         ∀ e ∈ (runOps (releaseBallIndex m u) ops).eyegazeBallIndices, e.2 ≠ v) := by
  obtain ⟨h1, h2, h3, h4, h5, h6, h7⟩ := hm
  refine ⟨?_, ?_, ?_⟩
  · intro v hv
    unfold assignBallIndex
    rw [hv]
  · intro hn
    have hfresh : ∀ e ∈ m.eyegazeBallIndices, e.2 ≠ m.nextAvailableBallIndex := by
      intro e he
      have := (h2 e he).2
      omega
    have hlk : lookupA (assignBallIndex m u).eyegazeBallIndices u
        = some m.nextAvailableBallIndex := by
      unfold assignBallIndex
      rw [hn]
      dsimp only
      rw [lookupA_append_of_none _ hn]
      simp [lookupA]
    have hcnt : (assignBallIndex m u).nextAvailableBallIndex
        = m.nextAvailableBallIndex + 1 := by
      unfold assignBallIndex
      rw [hn]
    exact ⟨hlk, h1, hfresh, hcnt⟩
  · intro v hv ops hops e he
    exact (freedIdx_runOps
      (release_establishes_freedIdx ⟨h1, h2, h3, h4, h5, h6, h7⟩ hv) hops).2 e he

/-- Witness for the amended C2 theorem, on `demoBallpitManager`: allocation
for `a` is idempotent, a fresh allocation for `c` gets the counter value, and
after `a` is released no assignment holds slot 1 again. -/
theorem C2_amended_witness :
    assignBallIndex demoBallpitManager "a" = demoBallpitManager ∧
    lookupA (assignBallIndex demoBallpitManager "c").eyegazeBallIndices "c"
        = some demoBallpitManager.nextAvailableBallIndex ∧
    ∀ e ∈ (runOps (releaseBallIndex demoBallpitManager "a") []).eyegazeBallIndices,
      e.2 ≠ 1 := by
  refine ⟨?_, ?_, ?_⟩
  · exact (C2_amended demoBallpitManager (by decide) "a").1 1 (by decide)
  · exact ((C2_amended demoBallpitManager (by decide) "c").2.1 (by decide)).1
  · intro e he
    exact (C2_amended demoBallpitManager (by decide) "a").2.2 1 (by decide) []
      (by decide) e he

/-- C3: over every public call sequence from a fresh manager (any
construction options), no two live registry entries hold the same assigned
ball index, and no entry other than `mouse` ever holds index 0. -/
theorem C3_slot_uniqueness (ct : Option String) (ub : Option Bool) (it : Option ℚ)
    (ops : List MOp) :
    (∀ e1 ∈ (runOps (mkInputManager ct ub it) ops).pointers,
       ∀ e2 ∈ (runOps (mkInputManager ct ub it) ops).pointers,
       ∀ n : ℕ, e1.2.ballIndex = some n → e2.2.ballIndex = some n → e1.1 = e2.1) ∧
    (∀ e ∈ (runOps (mkInputManager ct ub it) ops).pointers,
       e.1 ≠ "mouse" → e.2.ballIndex ≠ some 0) :=
  slotInv_unique (slotInv_runOps (slotInv_mk ct ub it) ops)

/-- Witness for C3 at the `demoOps` trace: entry `a` holds slot 1, not the
reserved slot 0. -/
theorem C3_slot_uniqueness_witness : demoPointerA.2.ballIndex ≠ some 0 :=
  (C3_slot_uniqueness (some "ballpit") (some true) none demoOps).2 demoPointerA
    (by decide) (by decide)

/-- C4: `getTargetPointer` returns the `mouse` pointer whenever one exists
(whatever the other timestamps), returns `none` on an empty registry, and
otherwise returns a registry pointer whose `lastSeen` is maximal (timestamps
are `performance.now()` values, hence above the scan's `-1` seed). -/
theorem C4_target_priority (m : InputManager) :
    (∀ p, lookupA m.pointers "mouse" = some p → getTargetPointer m = some p) ∧
    (lookupA m.pointers "mouse" = none → m.pointers = [] →
       getTargetPointer m = none) ∧
    (lookupA m.pointers "mouse" = none → m.pointers ≠ [] →
       (∀ e ∈ m.pointers, -1 < e.2.lastSeen) →
       ∃ e ∈ m.pointers, getTargetPointer m = some e.2 ∧
         ∀ e2 ∈ m.pointers, e2.2.lastSeen ≤ e.2.lastSeen) := by
  refine ⟨?_, ?_, ?_⟩
  · intro p hp
    unfold getTargetPointer
    rw [hp]
  · intro hn he
    unfold getTargetPointer
    rw [hn, he]
    rfl
  · intro hn hne hpos
    unfold getTargetPointer
    rw [hn]
    rcases latestFold_result m.pointers (none, -1) with h | ⟨e, he, heq⟩
    · exfalso
      obtain ⟨e0, he0⟩ := List.exists_mem_of_ne_nil m.pointers hne
      have hle := (latestFold_ge m.pointers (none, -1)).2 e0 he0
      rw [h] at hle
      have := hpos e0 he0
      simp at hle
      linarith
    · refine ⟨e, he, by rw [heq], ?_⟩
      intro e2 he2
      have hle := (latestFold_ge m.pointers (none, -1)).2 e2 he2
      rw [heq] at hle
      exact hle

/-- Witness for C4 on the P3 configuration: `mouse` (t = 100) wins over the
more recently active `eyes-1` (t = 200). -/
theorem C4_target_priority_witness :
    getTargetPointer demoPriorityManager =
      some { id := "mouse", x := JVal.num 100, y := JVal.num 100, lastSeen := 100
             color := none, ballIndex := some 0 } :=
  (C4_target_priority demoPriorityManager).1 _ (by decide)

/-- C5: the code contradicts the claim (and its own doc comment).  In the
ballpit configuration (`useBallAssignment = true`), after an update creates
the `mouse` pointer, `removePointer("mouse")` routes through
`_releaseBallIndex`, which deletes nothing because `mouse` holds no eyegaze
ball index: both calls return `true` and the pointer is still present,
whereas the claim requires `getPointer("mouse")` to be gone after either
call. -/
theorem C5_remove_bug :
    (let m1 := updatePointerPosition (mkInputManager (some "ballpit") (some true) none)
        (JVal.num 1) (JVal.num 2) none "mouse" 0
     (removePointer m1 "mouse").2 = true ∧
     (removePointer (removePointer m1 "mouse").1 "mouse").2 = true ∧
     hasPointer (removePointer m1 "mouse").1 "mouse" = true ∧
     hasPointer (removePointer (removePointer m1 "mouse").1 "mouse").1 "mouse" = true) := by
  decide

/-- C6: the code contradicts the claim (and its own doc comment).  A `guest`
pointer created under the fluid configuration holds no ball index; after
`setCursorType("ballpit")` enables ball assignment, an idle sweep at
t = 10000 with timeout 5000 reports one removal yet leaves `guest` in the
registry, because `_releaseBallIndex` skips ids without a ball index while
`removed` is incremented regardless. -/
theorem C6_cleanup_bug :
    (let m2 := setCursorType (updatePointerPosition (mkInputManager none none none)
        (JVal.num 1) (JVal.num 1) none "guest" 0) "ballpit"
     (cleanupInactiveUsers m2 (some 5000) 10000).2 = 1 ∧
     hasPointer (cleanupInactiveUsers m2 (some 5000) 10000).1 "guest" = true) := by
  norm_num +decide [cleanupInactiveUsers, setCursorType, updatePointerPosition,
    mkInputManager, getOrCreatePointer, createPointer, lookupA, setA, jsOrQ, jsOrColor,
    hasPointer, removeOne, releaseBallIndex, eraseA, handleBallpitInput, removePointer,
    List.filter_cons, List.filter_nil]

/-! ### Ball-physics helper lemmas -/

theorem getD_set_self {α : Type} (l : List α) (i : ℕ) (a d : α)
    (h : i < l.length) : (l.set i a).getD i d = a := by
  induction l generalizing i with
  | nil => simp at h
  | cons b t ih =>
    cases i with
    | zero => rfl
    | succ j =>
        simp only [List.set, List.getD, List.get?]
        exact ih j (by simpa using h)

theorem getD_set_ne {α : Type} (l : List α) (i j : ℕ) (a d : α)
    (h : i ≠ j) : (l.set i a).getD j d = l.getD j d := by
  induction l generalizing i j with
  | nil => simp [List.set]
  | cons b t ih =>
    cases i with
    | zero =>
        cases j with
        | zero => exact absurd rfl h
        | succ k => rfl
    | succ i2 =>
        cases j with
        | zero => rfl
        | succ k =>
            simp only [List.set, List.getD, List.get?]
            exact ih i2 k (fun hc => h (by rw [hc]))

theorem foldl_preserve {σ β : Type} (f : σ → β → σ) (P : σ → Prop) :
    ∀ (l : List β) (s : σ), (∀ t b, b ∈ l → P t → P (f t b)) → P s →
      P (l.foldl f s)
  | [], s, _, hs => hs
  | b :: t, s, hf, hs =>
      foldl_preserve f P t (f s b)
        (fun u e he hu => hf u e (List.mem_cons_of_mem _ he) hu)
        (hf s b (List.mem_cons_self _ _) hs)

theorem frame_refl (s : BallState) : Frame s s :=
  ⟨rfl, rfl, rfl, rfl, rfl, rfl⟩

theorem frame_trans {a b c : BallState} (h1 : Frame a b) (h2 : Frame b c) :
    Frame a c := by
  obtain ⟨x1, x2, x3, x4, x5, x6⟩ := h2
  obtain ⟨y1, y2, y3, y4, y5, y6⟩ := h1
  exact ⟨x1.trans y1, x2.trans y2, x3.trans y3, x4.trans y4, x5.trans y5, x6.trans y6⟩

theorem frame_eyegazeLeader (env : BallEnv) (cfg : BallConfig) (st : BallState)
    (u : String) (bi : ℕ) : Frame st (eyegazeLeader env cfg st u bi) := by
  unfold eyegazeLeader
  cases lookupA st.im.pointers u with
  | none => exact ⟨rfl, rfl, rfl, rfl, rfl, by simp⟩
  | some ptr =>
      dsimp only
      cases env.proj ptr.x ptr.y with
      | none => exact frame_refl st
      | some hit => exact ⟨rfl, rfl, rfl, by simp, by simp, by simp⟩

theorem frame_leaderPhase (env : BallEnv) (cfg : BallConfig) (st : BallState) :
    Frame st (leaderPhase env cfg st) := by
  unfold leaderPhase
  split
  · refine foldl_preserve _ (Frame st) _ _ ?_ ⟨rfl, rfl, rfl, by simp, by simp, by simp⟩
    intro t e _ ht
    exact frame_trans ht (frame_eyegazeLeader env cfg t e.1 e.2)
  · refine foldl_preserve _ (Frame st) _ _ ?_ ⟨rfl, rfl, rfl, rfl, rfl, by simp⟩
    intro t e _ ht
    exact frame_trans ht ⟨rfl, rfl, rfl, rfl, rfl, by simp⟩

theorem frame_pairCollide (env : BallEnv) (st : BallState) (i j : ℕ) :
    Frame st (pairCollide env st i j) := by
  unfold pairCollide
  dsimp only
  split
  · exact ⟨rfl, rfl, rfl, by simp, by simp, rfl⟩
  · exact frame_refl st

theorem siz_pairCollide (env : BallEnv) (st : BallState) (i j : ℕ) :
    (pairCollide env st i j).siz = st.siz := by
  unfold pairCollide
  dsimp only
  split
  · rfl
  · rfl

theorem frame_pairwisePhase (env : BallEnv) (cfg : BallConfig) (st : BallState) :
    Frame st (pairwisePhase env cfg st) ∧ (pairwisePhase env cfg st).siz = st.siz := by
  unfold pairwisePhase
  refine foldl_preserve _ (fun s => Frame st s ∧ s.siz = st.siz) _ _ ?_
    ⟨frame_refl st, rfl⟩
  intro t b _ ht
  dsimp only
  split
  · exact ht
  · refine foldl_preserve _ (fun s => Frame st s ∧ s.siz = st.siz) _ _ ?_ ht
    intro t2 b2 _ ht2
    dsimp only
    split
    · exact ht2
    · exact ⟨frame_trans ht2.1 (frame_pairCollide env t2 b b2),
        (siz_pairCollide env t2 b b2).trans ht2.2⟩

theorem frame_repelOne (env : BallEnv) (st : BallState) (c : Vec3) (cr : ℚ)
    (i : ℕ) : Frame st (repelOne env st c cr i) ∧ (repelOne env st c cr i).siz = st.siz := by
  unfold repelOne
  dsimp only
  split
  · exact ⟨⟨rfl, rfl, rfl, by simp, by simp, rfl⟩, rfl⟩
  · exact ⟨frame_refl st, rfl⟩

theorem frame_repulsionPhase (env : BallEnv) (cfg : BallConfig) (st : BallState) :
    Frame st (repulsionPhase env cfg st) ∧ (repulsionPhase env cfg st).siz = st.siz := by
  unfold repulsionPhase
  split
  · refine foldl_preserve _ (fun s => Frame st s ∧ s.siz = st.siz) _ _ ?_
      ⟨frame_refl st, rfl⟩
    intro t b _ ht
    dsimp only
    split
    · refine foldl_preserve _ (fun s => Frame st s ∧ s.siz = st.siz) _ _ ?_ ht
      intro t2 b2 _ ht2
      dsimp only
      split
      · exact ht2
      · obtain ⟨hf, hs⟩ := frame_repelOne env t2 (getPos t b) (getSiz t b) b2
        exact ⟨frame_trans ht2.1 hf, hs.trans ht2.2⟩
    · exact ht
  · exact ⟨frame_refl st, rfl⟩

theorem frame_integrateOne (env : BallEnv) (cfg : BallConfig) (dt bz : ℚ)
    (st : BallState) (i : ℕ) : Frame st (integrateOne env cfg dt bz st i) ∧
      (integrateOne env cfg dt bz st i).siz = st.siz :=
  ⟨⟨rfl, rfl, rfl, by simp [integrateOne], by simp [integrateOne], rfl⟩, rfl⟩

theorem frame_integratePhase (env : BallEnv) (cfg : BallConfig) (dt : ℚ)
    (st : BallState) : Frame st (integratePhase env cfg dt st) ∧
      (integratePhase env cfg dt st).siz = st.siz := by
  unfold integratePhase
  refine foldl_preserve _ (fun s => Frame st s ∧ s.siz = st.siz) _ _ ?_
    ⟨frame_refl st, rfl⟩
  intro t b _ ht
  obtain ⟨hf, hs⟩ := frame_integrateOne env cfg dt _ t b
  exact ⟨frame_trans ht.1 hf, hs.trans ht.2⟩

theorem siz_eyegazeLeader_ne (env : BallEnv) (cfg : BallConfig) (st : BallState)
    (u : String) (bi i : ℕ) (h : i ≠ bi) :
    getSiz (eyegazeLeader env cfg st u bi) i = getSiz st i := by
  unfold eyegazeLeader
  cases lookupA st.im.pointers u with
  | none => exact getD_set_ne _ _ _ _ _ (fun hc => h hc.symm)
  | some ptr =>
      dsimp only
      cases env.proj ptr.x ptr.y with
      | none => rfl
      | some hit => exact getD_set_ne _ _ _ _ _ (fun hc => h hc.symm)

theorem siz_leaderPhase_free (env : BallEnv) (cfg : BallConfig) (st : BallState)
    (i : ℕ) (hi : i ∉ cursorIdxs st) :
    getSiz (leaderPhase env cfg st) i = getSiz st i := by
  have h0 : i ≠ 0 := by
    intro hc
    exact hi (hc ▸ by simp [cursorIdxs])
  have hvals : ∀ e ∈ st.im.eyegazeBallIndices, i ≠ e.2 := by
    intro e he hc
    refine hi ?_
    simp only [cursorIdxs, List.mem_dedup]
    exact List.mem_cons_of_mem _ (hc ▸ List.mem_map.2 ⟨e, he, rfl⟩)
  unfold leaderPhase
  split
  · refine foldl_preserve _ (fun s => getSiz s i = getSiz st i) _ _ ?_
      (getD_set_ne _ _ _ _ _ (fun hc => h0 hc.symm))
    intro t e he ht
    rw [← ht]
    exact siz_eyegazeLeader_ne env cfg t e.1 e.2 i (hvals e he)
  · refine foldl_preserve _ (fun s => getSiz s i = getSiz st i) _ _ ?_
      (getD_set_ne _ _ _ _ _ (fun hc => h0 hc.symm))
    intro t e he ht
    rw [← ht]
    exact getD_set_ne _ _ _ _ _ (fun hc => hvals e he hc.symm)

theorem jsSign_mul_abs_le (t c : ℚ) (hc : 0 ≤ c) : |jsSign t * c| ≤ c := by
  unfold jsSign
  split_ifs with h1 h2
  · rw [one_mul, abs_of_nonneg hc]
  · rw [neg_one_mul, abs_neg, abs_of_nonneg hc]
  · rw [zero_mul, abs_zero]
    exact hc

theorem wallClamp_contained (cfg : BallConfig) (bounds : Vec3) (bz rad : ℚ)
    (p1 v3 : Vec3) (hx : rad ≤ bounds.x) (hz : rad ≤ bz) :
    |(wallClamp cfg bounds bz rad p1 v3).1.x| ≤ bounds.x - rad ∧
    -bounds.y + rad ≤ (wallClamp cfg bounds bz rad p1 v3).1.y ∧
    |(wallClamp cfg bounds bz rad p1 v3).1.z| ≤ bz - rad := by
  unfold wallClamp
  dsimp only
  refine ⟨?_, ?_, ?_⟩
  · split
    · exact jsSign_mul_abs_le _ _ (by linarith)
    · next h =>
        rw [not_lt] at h
        dsimp only
        linarith
  · split
    · dsimp only
      linarith
    · next h =>
        rw [not_lt] at h
        dsimp only
        linarith
  · split
    · exact jsSign_mul_abs_le _ _ (by linarith)
    · next h =>
        rw [not_lt] at h
        dsimp only
        linarith

theorem wallClamp_y_lb (cfg : BallConfig) (bounds : Vec3) (bz rad : ℚ)
    (p1 v3 : Vec3) : p1.y ≤ (wallClamp cfg bounds bz rad p1 v3).1.y := by
  unfold wallClamp
  dsimp only
  split
  · next h =>
      dsimp only
      linarith
  · dsimp only
    exact le_refl _

theorem integrateWalls_contained (env : BallEnv) (cfg : BallConfig)
    (bounds : Vec3) (bz : ℚ) (pv : Vec3 × Vec3) (rad dt : ℚ)
    (hx : rad ≤ bounds.x) (hz : rad ≤ bz) :
    |(integrateWalls env cfg bounds bz pv rad dt).1.x| ≤ bounds.x - rad ∧
    -bounds.y + rad ≤ (integrateWalls env cfg bounds bz pv rad dt).1.y ∧
    |(integrateWalls env cfg bounds bz pv rad dt).1.z| ≤ bz - rad := by
  unfold integrateWalls
  dsimp only
  exact wallClamp_contained cfg bounds bz rad _ _ hx hz

theorem getPos_integrateOne_self (env : BallEnv) (cfg : BallConfig) (dt bz : ℚ)
    (st : BallState) (i : ℕ) (hp : i < st.pos.length) :
    getPos (integrateOne env cfg dt bz st i) i =
      (integrateWalls env cfg st.bounds bz (getPos st i, getVel st i)
        (getSiz st i) dt).1 := by
  unfold integrateOne getPos
  dsimp only
  exact getD_set_self _ _ _ _ hp

theorem getPos_integrateOne_ne (env : BallEnv) (cfg : BallConfig) (dt bz : ℚ)
    (st : BallState) (b i : ℕ) (h : b ≠ i) :
    getPos (integrateOne env cfg dt bz st b) i = getPos st i := by
  unfold integrateOne getPos
  dsimp only
  exact getD_set_ne _ _ _ _ _ h

theorem integrateFold_contained (env : BallEnv) (cfg : BallConfig) (dt bz : ℚ)
    (i : ℕ) :
    ∀ (l : List ℕ) (st : BallState), i ∈ l →
      getSiz st i ≤ st.bounds.x → getSiz st i ≤ bz → i < st.pos.length →
      |(getPos (l.foldl (integrateOne env cfg dt bz) st) i).x| ≤
          st.bounds.x - getSiz st i ∧
      -st.bounds.y + getSiz st i ≤
          (getPos (l.foldl (integrateOne env cfg dt bz) st) i).y ∧
      |(getPos (l.foldl (integrateOne env cfg dt bz) st) i).z| ≤ bz - getSiz st i := by
  intro l
  induction l with
  | nil =>
      intro st hmem
      simp at hmem
  | cons a t ih =>
      intro st hmem hx hz hp
      rw [List.foldl_cons]
      by_cases hit : i ∈ t
      · have hplen : i < (integrateOne env cfg dt bz st a).pos.length := by
          simpa [integrateOne] using hp
        exact ih (integrateOne env cfg dt bz st a) hit hx hz hplen
      · have hia : i = a := by
          rcases List.mem_cons.1 hmem with h | h
          · exact h
          · exact absurd h hit
        subst hia
        have hpres : getPos (t.foldl (integrateOne env cfg dt bz)
            (integrateOne env cfg dt bz st i)) i =
            (integrateWalls env cfg st.bounds bz (getPos st i, getVel st i)
              (getSiz st i) dt).1 := by
          refine foldl_preserve _ (fun s => getPos s i = _) _ _ ?_
            (getPos_integrateOne_self env cfg dt bz st i hp)
          intro s b hb hs
          rw [← hs]
          exact getPos_integrateOne_ne env cfg dt bz s b i (fun hc => hit (hc ▸ hb))
        rw [hpres]
        exact integrateWalls_contained env cfg st.bounds bz
          (getPos st i, getVel st i) (getSiz st i) dt hx hz

theorem stepPhysics_im (env : BallEnv) (cfg : BallConfig) (dt : ℚ)
    (st : BallState) : Frame st (stepPhysics env cfg dt st) := by
  unfold stepPhysics
  refine frame_trans (frame_leaderPhase env cfg st) ?_
  refine frame_trans (frame_pairwisePhase env cfg _).1 ?_
  refine frame_trans (frame_repulsionPhase env cfg _).1 ?_
  exact (frame_integratePhase env cfg dt _).1

theorem cursorIdxs_eq_of_im {s t : BallState} (h : s.im = t.im) :
    cursorIdxs s = cursorIdxs t := by
  unfold cursorIdxs
  rw [h]

theorem stepPhysics_siz_free (env : BallEnv) (cfg : BallConfig) (dt : ℚ)
    (st : BallState) (i : ℕ) (hi : i ∉ cursorIdxs st) :
    getSiz (stepPhysics env cfg dt st) i = getSiz st i := by
  unfold stepPhysics
  have h1 := siz_leaderPhase_free env cfg st i hi
  have h2 := (frame_pairwisePhase env cfg (leaderPhase env cfg st)).2
  have h3 := (frame_repulsionPhase env cfg
    (pairwisePhase env cfg (leaderPhase env cfg st))).2
  have h4 := (frame_integratePhase env cfg dt
    (repulsionPhase env cfg (pairwisePhase env cfg (leaderPhase env cfg st)))).2
  unfold getSiz at h1 ⊢
  rw [h4, h3, h2]
  exact h1

theorem stepPhysics_contained (env : BallEnv) (cfg : BallConfig) (dt : ℚ)
    (st : BallState) (i : ℕ) (hfree : FreeIdx cfg st i)
    (hM : 0 < cfg.MAX_SIZE) (hMz : cfg.MAX_SIZE ≤ st.bounds.z)
    (hplen : st.pos.length = cfg.COUNT)
    (hx : getSiz st i ≤ st.bounds.x) (hz : getSiz st i ≤ st.bounds.z) :
    |(getPos (stepPhysics env cfg dt st) i).x| ≤ st.bounds.x - getSiz st i ∧
    -st.bounds.y + getSiz st i ≤ (getPos (stepPhysics env cfg dt st) i).y ∧
    |(getPos (stepPhysics env cfg dt st) i).z| ≤ st.bounds.z - getSiz st i := by
  obtain ⟨hi1, hi2, hi3⟩ := hfree
  have hbz : max st.bounds.z (if cfg.MAX_SIZE = 0 then 1 else cfg.MAX_SIZE)
      = st.bounds.z := by
    rw [if_neg (ne_of_gt hM)]
    exact max_eq_left hMz
  have hmem : i ∈ List.range' 1 (cfg.COUNT - 1) := by
    rw [List.mem_range'_1]
    omega
  -- the state reaching the integration loop
  have hfr3 : Frame st (repulsionPhase env cfg (pairwisePhase env cfg
      (leaderPhase env cfg st))) := by
    refine frame_trans (frame_leaderPhase env cfg st) ?_
    refine frame_trans (frame_pairwisePhase env cfg _).1 ?_
    exact (frame_repulsionPhase env cfg _).1
  have hsiz3 : getSiz (repulsionPhase env cfg (pairwisePhase env cfg
      (leaderPhase env cfg st))) i = getSiz st i := by
    have h1 := siz_leaderPhase_free env cfg st i hi3
    have h2 := (frame_pairwisePhase env cfg (leaderPhase env cfg st)).2
    have h3 := (frame_repulsionPhase env cfg
      (pairwisePhase env cfg (leaderPhase env cfg st))).2
    unfold getSiz at h1 ⊢
    rw [h3, h2]
    exact h1
  obtain ⟨him, hbounds, hcenter, hpl, hvl, hsl⟩ := hfr3
  have hcon := integrateFold_contained env cfg dt st.bounds.z i
    (List.range' 1 (cfg.COUNT - 1))
    (repulsionPhase env cfg (pairwisePhase env cfg (leaderPhase env cfg st)))
    hmem (by rw [hsiz3, hbounds]; exact hx) (by rw [hsiz3]; exact hz)
    (by rw [hpl, hplen]; exact hi2)
  rw [hsiz3, hbounds] at hcon
  unfold stepPhysics integratePhase
  dsimp only
  rw [hbounds, hbz]
  exact hcon

theorem stepN_contained (env : BallEnv) (cfg : BallConfig) (dt : ℚ) :
    ∀ (n : ℕ) (st : BallState), 1 ≤ n →
      (0 < cfg.MAX_SIZE) → (cfg.MAX_SIZE ≤ st.bounds.z) →
      (st.pos.length = cfg.COUNT) →
      (∀ j, FreeIdx cfg st j → getSiz st j ≤ st.bounds.x ∧ getSiz st j ≤ st.bounds.z) →
      ∀ i, FreeIdx cfg st i →
        |(getPos (stepN env cfg dt n st) i).x| ≤ st.bounds.x - getSiz st i ∧
        -st.bounds.y + getSiz st i ≤ (getPos (stepN env cfg dt n st) i).y ∧
        |(getPos (stepN env cfg dt n st) i).z| ≤ st.bounds.z - getSiz st i := by
  intro n
  induction n with
  | zero =>
      intro st hn
      omega
  | succ k ih =>
      intro st _ hM hMz hplen hsz i hfree
      cases k with
      | zero =>
          show _ ∧ _ ∧ _
          exact stepPhysics_contained env cfg dt st i hfree hM hMz hplen
            (hsz i hfree).1 (hsz i hfree).2
      | succ k2 =>
          obtain ⟨him, hbounds, hcenter, hpl, hvl, hsl⟩ := stepPhysics_im env cfg dt st
          have hcursor := cursorIdxs_eq_of_im him
          have hfree2 : ∀ j, FreeIdx cfg (stepPhysics env cfg dt st) j ↔ FreeIdx cfg st j := by
            intro j
            unfold FreeIdx
            rw [hcursor]
          have hsizeq : ∀ j, FreeIdx cfg st j →
              getSiz (stepPhysics env cfg dt st) j = getSiz st j :=
            fun j hj => stepPhysics_siz_free env cfg dt st j hj.2.2
          have hres := ih (stepPhysics env cfg dt st) (by omega) hM
            (by rw [hbounds]; exact hMz) (by rw [hpl]; exact hplen)
            (by
              intro j hj
              rw [hsizeq j ((hfree2 j).1 hj), hbounds]
              exact hsz j ((hfree2 j).1 hj))
            i ((hfree2 i).2 hfree)
          show _ ∧ _ ∧ _
          rw [hsizeq i hfree, hbounds] at hres
          exact hres

theorem integrateWalls_y_unbounded (env : BallEnv) (cfg : BallConfig)
    (bounds : Vec3) (bz : ℚ) (rad dt M : ℚ) :
    ∃ pv : Vec3 × Vec3, M < (integrateWalls env cfg bounds bz pv rad dt).1.y := by
  refine ⟨(⟨0, M + 1 - (velPipeline env cfg ⟨0, 0, 0⟩ rad dt).y, 0⟩, ⟨0, 0, 0⟩), ?_⟩
  unfold integrateWalls
  dsimp only
  have h := wallClamp_y_lb cfg bounds bz rad
    ⟨0 + (velPipeline env cfg ⟨0, 0, 0⟩ rad dt).x,
     M + 1 - (velPipeline env cfg ⟨0, 0, 0⟩ rad dt).y +
       (velPipeline env cfg ⟨0, 0, 0⟩ rad dt).y,
     0 + (velPipeline env cfg ⟨0, 0, 0⟩ rad dt).z⟩
    (velPipeline env cfg ⟨0, 0, 0⟩ rad dt)
  dsimp only at h
  linarith [h]

/-! ### Leader radii -/

theorem siz_chain_step (env : BallEnv) (cfg : BallConfig) (dt : ℚ)
    (st : BallState) (i : ℕ) :
    getSiz (stepPhysics env cfg dt st) i = getSiz (leaderPhase env cfg st) i := by
  unfold stepPhysics
  have h2 := (frame_pairwisePhase env cfg (leaderPhase env cfg st)).2
  have h3 := (frame_repulsionPhase env cfg
    (pairwisePhase env cfg (leaderPhase env cfg st))).2
  have h4 := (frame_integratePhase env cfg dt
    (repulsionPhase env cfg (pairwisePhase env cfg (leaderPhase env cfg st)))).2
  unfold getSiz
  rw [h4, h3, h2]

theorem siz0_leaderPhase (env : BallEnv) (cfg : BallConfig) (st : BallState)
    (hF : cfg.FOLLOW_CURSOR = true) (hlen : 0 < st.siz.length)
    (hvals : ∀ e ∈ st.im.eyegazeBallIndices, e.2 ≠ 0) :
    getSiz (leaderPhase env cfg st) 0 = max cfg.MAX_SIZE 0.36 := by
  unfold leaderPhase
  rw [if_pos hF]
  dsimp only
  refine foldl_preserve _ (fun s => getSiz s 0 = max cfg.MAX_SIZE 0.36) _ _ ?_ ?_
  · intro t e he ht
    rw [siz_eyegazeLeader_ne env cfg t e.1 e.2 0 (fun hc => hvals e he hc.symm)]
    exact ht
  · exact getD_set_self _ _ _ _ hlen

theorem eyegazeLeader_self_none (env : BallEnv) (cfg : BallConfig)
    (s : BallState) (u : String) (bi : ℕ) (hl : lookupA s.im.pointers u = none)
    (hlen : bi < s.siz.length) : getSiz (eyegazeLeader env cfg s u bi) bi = 0 := by
  unfold eyegazeLeader
  rw [hl]
  exact getD_set_self _ _ _ _ hlen

theorem eyegazeLeader_self_hit (env : BallEnv) (cfg : BallConfig)
    (s : BallState) (u : String) (bi : ℕ) (ptr : Pointer) (hit : Vec3)
    (hl : lookupA s.im.pointers u = some ptr)
    (hp : env.proj ptr.x ptr.y = some hit) (hlen : bi < s.siz.length) :
    getSiz (eyegazeLeader env cfg s u bi) bi = max cfg.MAX_SIZE 0.36 := by
  unfold eyegazeLeader
  rw [hl]
  dsimp only
  rw [hp]
  exact getD_set_self _ _ _ _ hlen

theorem eyegazeFold_value (env : BallEnv) (cfg : BallConfig) (u : String)
    (bi : ℕ) (v : ℚ) (t0 : InputManager)
    (hval : ∀ s : BallState, s.im = t0 → bi < s.siz.length →
      getSiz (eyegazeLeader env cfg s u bi) bi = v) :
    ∀ (l : List (String × ℕ)) (s : BallState), s.im = t0 → (u, bi) ∈ l →
      (∀ e ∈ l, e.2 = bi → e = (u, bi)) → bi < s.siz.length →
      getSiz (l.foldl (fun acc e => eyegazeLeader env cfg acc e.1 e.2) s) bi = v := by
  intro l
  induction l with
  | nil =>
      intro s _ hmem
      simp at hmem
  | cons a t ih =>
      intro s him hmem huniq hlen
      rw [List.foldl_cons]
      have hfr := frame_eyegazeLeader env cfg s a.1 a.2
      by_cases hit2 : (u, bi) ∈ t
      · refine ih (eyegazeLeader env cfg s a.1 a.2) (hfr.1.trans him) hit2
          (fun e he => huniq e (List.mem_cons_of_mem _ he)) ?_
        rw [hfr.2.2.2.2.2]
        exact hlen
      · have ha : a = (u, bi) := by
          rcases List.mem_cons.1 hmem with h | h
          · exact h.symm
          · exact absurd h hit2
        subst ha
        have hafter : getSiz (eyegazeLeader env cfg s u bi) bi = v :=
          hval s him hlen
        refine foldl_preserve _ (fun s2 => getSiz s2 bi = v) _ _ ?_ hafter
        intro s2 e he hs2
        have hne : e.2 ≠ bi := by
          intro hc
          exact hit2 (huniq e (List.mem_cons_of_mem _ he) hc ▸ he)
        rw [siz_eyegazeLeader_ne env cfg s2 e.1 e.2 bi (fun hc => hne hc.symm)]
        exact hs2

theorem sizbi_leaderPhase (env : BallEnv) (cfg : BallConfig) (st : BallState)
    (u : String) (bi : ℕ) (v : ℚ) (hF : cfg.FOLLOW_CURSOR = true)
    (hmem : (u, bi) ∈ st.im.eyegazeBallIndices)
    (hnd : (st.im.eyegazeBallIndices.map Prod.snd).Nodup)
    (hlen : bi < st.siz.length)
    (hval : ∀ s : BallState, s.im = st.im → bi < s.siz.length →
      getSiz (eyegazeLeader env cfg s u bi) bi = v) :
    getSiz (leaderPhase env cfg st) bi = v := by
  unfold leaderPhase
  rw [if_pos hF]
  dsimp only
  refine eyegazeFold_value env cfg u bi v st.im hval _ _ rfl hmem ?_ ?_
  · intro e he h2
    exact List.inj_on_of_nodup_map hnd he hmem (by simpa using h2)
  · simpa using hlen

/-! ### Claim theorems for the ball engine -/

/-- C7: with cursor following, gravity and wall bounce in the default regime
(`0 < MAX_SIZE ≤ bounds.z`, every free particle's radius within the x and z
half-extents, buffers sized `COUNT`), after any positive number of physics
steps every free particle's centre satisfies `|x| ≤ bounds.x − radius`,
`y ≥ −bounds.y + radius` and `|z| ≤ bounds.z − radius`; and the y axis has no
ceiling: the integrate-and-walls kernel produces outputs with arbitrarily
large `y` for any configuration and radius. -/
theorem C7_wall_containment (env : BallEnv) (cfg : BallConfig) (dt : ℚ)
    (st : BallState) (n : ℕ) (hn : 1 ≤ n)
    (hM : 0 < cfg.MAX_SIZE) (hMz : cfg.MAX_SIZE ≤ st.bounds.z)
    (hplen : st.pos.length = cfg.COUNT)
    (hsz : ∀ j, FreeIdx cfg st j →
      getSiz st j ≤ st.bounds.x ∧ getSiz st j ≤ st.bounds.z) :
    (∀ i, FreeIdx cfg st i →
       |(getPos (stepN env cfg dt n st) i).x| ≤ st.bounds.x - getSiz st i ∧
       -st.bounds.y + getSiz st i ≤ (getPos (stepN env cfg dt n st) i).y ∧
       |(getPos (stepN env cfg dt n st) i).z| ≤ st.bounds.z - getSiz st i) ∧
    (∀ rad M : ℚ, ∃ pv : Vec3 × Vec3,
       M < (integrateWalls env cfg st.bounds
         (max st.bounds.z (if cfg.MAX_SIZE = 0 then 1 else cfg.MAX_SIZE))
         pv rad dt).1.y) :=
  ⟨fun i hi => stepN_contained env cfg dt n st hn hM hMz hplen hsz i hi,
   fun rad M => integrateWalls_y_unbounded env cfg st.bounds _ rad dt M⟩

/-- Witness for C7 on the two-particle demo state: the free particle stays
inside the walls after one step, and the integration kernel can emit y above
any bound. -/
theorem C7_wall_containment_witness :
    (|(getPos (stepN demoEnv demoCfg 1 1 demoBallState) 1).x| ≤
        demoBallState.bounds.x - getSiz demoBallState 1 ∧
     -demoBallState.bounds.y + getSiz demoBallState 1 ≤
        (getPos (stepN demoEnv demoCfg 1 1 demoBallState) 1).y ∧
     |(getPos (stepN demoEnv demoCfg 1 1 demoBallState) 1).z| ≤
        demoBallState.bounds.z - getSiz demoBallState 1) ∧
    (∃ pv : Vec3 × Vec3, 5 < (integrateWalls demoEnv demoCfg demoBallState.bounds
        (max demoBallState.bounds.z
          (if demoCfg.MAX_SIZE = 0 then 1 else demoCfg.MAX_SIZE)) pv 1 1).1.y) := by
  have h := C7_wall_containment demoEnv demoCfg 1 demoBallState 1 (le_refl 1)
    (by norm_num [demoCfg]) (by norm_num [demoCfg, demoBallState]) (by rfl)
    (by
      intro j hj
      obtain ⟨hj1, hj2, _⟩ := hj
      have hc : demoCfg.COUNT = 2 := rfl
      rw [hc] at hj2
      have hj : j = 1 := by omega
      subst hj
      constructor <;> norm_num [getSiz, demoBallState])
  exact ⟨h.1 1 (by decide), h.2 1 5⟩

theorem siz0_step (env : BallEnv) (cfg : BallConfig) (dt : ℚ) (st : BallState)
    (hF : cfg.FOLLOW_CURSOR = true) (hlen : 0 < st.siz.length)
    (hvals : ∀ e ∈ st.im.eyegazeBallIndices, e.2 ≠ 0)
    (h36 : (0.36 : ℚ) ≤ cfg.MAX_SIZE) :
    getSiz (stepPhysics env cfg dt st) 0 = cfg.MAX_SIZE := by
  rw [siz_chain_step, siz0_leaderPhase env cfg st hF hlen hvals]
  exact max_eq_left h36

theorem scenarioB_stepN (env : BallEnv) (cfg : BallConfig) (dt : ℚ) :
    ∀ (n : ℕ) (st : BallState), 1 ≤ n → cfg.FOLLOW_CURSOR = true →
      (0.36 : ℚ) ≤ cfg.MAX_SIZE → st.im.eyegazeBallIndices = [] →
      0 < cfg.COUNT → st.siz.length = cfg.COUNT →
      (∀ i, 1 ≤ i → i < cfg.COUNT →
        cfg.MIN_SIZE ≤ getSiz st i ∧ getSiz st i < cfg.MAX_SIZE) →
      getSiz (stepN env cfg dt n st) 0 = cfg.MAX_SIZE ∧
      ∀ i, 1 ≤ i → i < cfg.COUNT →
        cfg.MIN_SIZE ≤ getSiz (stepN env cfg dt n st) i ∧
        getSiz (stepN env cfg dt n st) i < cfg.MAX_SIZE := by
  intro n
  induction n with
  | zero =>
      intro st hn
      omega
  | succ k ih =>
      intro st _ hF h36 hebi hc hslen hfree
      have hvals : ∀ e ∈ st.im.eyegazeBallIndices, e.2 ≠ 0 := by
        rw [hebi]
        intro e he
        simp at he
      have hnotc : ∀ i : ℕ, 1 ≤ i → i ∉ cursorIdxs st := by
        intro i hi hmem
        unfold cursorIdxs at hmem
        rw [hebi] at hmem
        simp at hmem
        omega
      have hs0 : getSiz (stepPhysics env cfg dt st) 0 = cfg.MAX_SIZE :=
        siz0_step env cfg dt st hF (by omega) hvals h36
      have hsfree : ∀ i, 1 ≤ i →
          getSiz (stepPhysics env cfg dt st) i = getSiz st i :=
        fun i hi => stepPhysics_siz_free env cfg dt st i (hnotc i hi)
      cases k with
      | zero =>
          refine ⟨hs0, ?_⟩
          intro i hi1 hi2
          show cfg.MIN_SIZE ≤ getSiz (stepPhysics env cfg dt st) i ∧
            getSiz (stepPhysics env cfg dt st) i < cfg.MAX_SIZE
          rw [hsfree i hi1]
          exact hfree i hi1 hi2
      | succ k2 =>
          obtain ⟨him, hbounds, hcenter, hpl, hvl, hsl⟩ := stepPhysics_im env cfg dt st
          exact ih (stepPhysics env cfg dt st) (by omega) hF h36
            (by rw [him]; exact hebi) hc (by rw [hsl]; exact hslen)
            (by
              intro i hi1 hi2
              rw [hsfree i hi1]
              exact hfree i hi1 hi2)

/-- C8, counterexample: with `MAX_SIZE = 0.2` configured and an empty pointer
registry (no active mouse pointer), one physics step forces the mouse
leader's radius to `0.36`, which is neither the configured `MAX_SIZE` nor the
zero the claim requires for a leader with no currently-active pointer. -/
theorem C8_counterexample :
    getSiz (stepPhysics demoEnv cexCfg 1 cexSt) 0 = 0.36 ∧
    cexCfg.MAX_SIZE = 0.2 ∧ ((0.36 : ℚ) ≠ 0.2) ∧
    hasPointer cexSt.im "mouse" = false ∧
    getSiz (stepPhysics demoEnv cexCfg 1 cexSt) 0 ≠ 0 := by
  have hs : getSiz (stepPhysics demoEnv cexCfg 1 cexSt) 0
      = max cexCfg.MAX_SIZE 0.36 := by
    rw [siz_chain_step]
    refine siz0_leaderPhase demoEnv cexCfg cexSt (by rfl) (by decide) ?_
    intro e he
    simp [cexSt, mkInputManager] at he
  have hmax : max cexCfg.MAX_SIZE 0.36 = 0.36 :=
    max_eq_right (by norm_num [cexCfg])
  refine ⟨hs.trans hmax, rfl, by norm_num, by decide, ?_⟩
  rw [hs.trans hmax]
  norm_num

/-- C8, amended: on every step with cursor following enabled and
`MAX_SIZE ≥ 0.36` (true of the default 1.2), (i) the mouse leader's radius is
set to `MAX_SIZE` whether or not a mouse pointer is active (in general the
code uses `max(MAX_SIZE, 0.36)`, a floor the claim omits); (ii) an eyegaze
leader's radius is set to 0 when its user has no live pointer, and to
`MAX_SIZE` when the user is live and its position projects onto the follow
plane; (iii) the particle array keeps its length (leaders are hidden, never
removed); and (iv) in the scenario with only the mouse active (no eyegaze
assignments), after any positive number of steps particle 0 has radius
exactly `MAX_SIZE` while every other particle keeps its initial radius in
`[MIN_SIZE, MAX_SIZE)` — so exactly index 0 carries radius `MAX_SIZE`. -/
theorem C8_amended (env : BallEnv) (cfg : BallConfig) (dt : ℚ) (st : BallState)
    (hF : cfg.FOLLOW_CURSOR = true) (h36 : (0.36 : ℚ) ≤ cfg.MAX_SIZE) :
    (0 < st.siz.length → (∀ e ∈ st.im.eyegazeBallIndices, e.2 ≠ 0) →
       getSiz (stepPhysics env cfg dt st) 0 = cfg.MAX_SIZE) ∧
    (∀ u bi, (u, bi) ∈ st.im.eyegazeBallIndices →
       (st.im.eyegazeBallIndices.map Prod.snd).Nodup → bi < st.siz.length →
       (lookupA st.im.pointers u = none →
          getSiz (stepPhysics env cfg dt st) bi = 0) ∧
       (∀ ptr hit, lookupA st.im.pointers u = some ptr →
          env.proj ptr.x ptr.y = some hit →
          getSiz (stepPhysics env cfg dt st) bi = cfg.MAX_SIZE)) ∧
    ((stepPhysics env cfg dt st).siz.length = st.siz.length) ∧
    (st.im.eyegazeBallIndices = [] → 0 < cfg.COUNT → st.siz.length = cfg.COUNT →
       (∀ i, 1 ≤ i → i < cfg.COUNT →
         cfg.MIN_SIZE ≤ getSiz st i ∧ getSiz st i < cfg.MAX_SIZE) →
       ∀ n, 1 ≤ n →
         getSiz (stepN env cfg dt n st) 0 = cfg.MAX_SIZE ∧
         ∀ i, 1 ≤ i → i < cfg.COUNT →
           cfg.MIN_SIZE ≤ getSiz (stepN env cfg dt n st) i ∧
           getSiz (stepN env cfg dt n st) i < cfg.MAX_SIZE) := by
  refine ⟨?_, ?_, ?_, ?_⟩
  · intro hlen hvals
    exact siz0_step env cfg dt st hF hlen hvals h36
  · intro u bi hmem hnd hlen
    constructor
    · intro hl
      rw [siz_chain_step]
      refine sizbi_leaderPhase env cfg st u bi 0 hF hmem hnd hlen ?_
      intro s hsim hbl
      exact eyegazeLeader_self_none env cfg s u bi (by rw [hsim]; exact hl) hbl
    · intro ptr hit hl hp
      rw [siz_chain_step]
      have := sizbi_leaderPhase env cfg st u bi (max cfg.MAX_SIZE 0.36) hF hmem hnd hlen
        (fun s hsim hbl =>
          eyegazeLeader_self_hit env cfg s u bi ptr hit (by rw [hsim]; exact hl) hp hbl)
      rw [this]
      exact max_eq_left h36
  · exact (stepPhysics_im env cfg dt st).2.2.2.2.2
  · intro hebi hc hslen hfree n hn
    exact scenarioB_stepN env cfg dt n st hn hF h36 hebi hc hslen hfree

/-- Witness for the amended C8 theorem on the demo state (only the mouse,
`MAX_SIZE = 1 ≥ 0.36`): after one step particle 0 has radius `MAX_SIZE`, the
free particle keeps its radius inside `[MIN_SIZE, MAX_SIZE)`, and the array
length is unchanged. -/
theorem C8_amended_witness :
    getSiz (stepN demoEnv demoCfg 1 1 demoBallState) 0 = demoCfg.MAX_SIZE ∧
    (demoCfg.MIN_SIZE ≤ getSiz (stepN demoEnv demoCfg 1 1 demoBallState) 1 ∧
      getSiz (stepN demoEnv demoCfg 1 1 demoBallState) 1 < demoCfg.MAX_SIZE) ∧
    (stepPhysics demoEnv demoCfg 1 demoBallState).siz.length
      = demoBallState.siz.length := by
  have h := C8_amended demoEnv demoCfg 1 demoBallState (by rfl)
    (by norm_num [demoCfg])
  have hs := h.2.2.2 (by decide) (by decide) (by rfl)
    (by
      intro i hi1 hi2
      have hco : demoCfg.COUNT = 2 := rfl
      rw [hco] at hi2
      have hi : i = 1 := by omega
      subst hi
      constructor <;> norm_num [getSiz, demoBallState, demoCfg])
    1 (le_refl 1)
  exact ⟨hs.1, hs.2 1 (by omega) (by decide), h.2.2.1⟩

/-! ### Fluid-cursor lemmas -/

theorem colorCycle_get (env : FluidEnv) :
    ∀ (l : List (String × FPointer)) (r i : ℕ),
      (colorCycle env r l).get? i
        = (l.get? i).map
            (fun e => (e.1, { e.2 with color := some (env.gen (r + i)) })) := by
  intro l
  induction l with
  | nil =>
      intro r i
      simp [colorCycle]
  | cons a t ih =>
      intro r i
      cases i with
      | zero => simp [colorCycle]
      | succ j =>
          have hn : r + 1 + j = r + (j + 1) := by omega
          show (colorCycle env (r + 1) t).get? j = _
          rw [ih (r + 1) j, hn]
          rfl

theorem getOrCreate_cursorType (m : InputManager) (id : String) (c : Option Color) :
    (getOrCreatePointer m id c).cursorType = m.cursorType := by
  unfold getOrCreatePointer
  cases lookupA m.pointers id <;> rfl

theorem getOrCreate_lookup_id (m : InputManager) (id : String) (c : Option Color)
    {p : Pointer} (hp : lookupA (getOrCreatePointer m id c).pointers id = some p)
    (hid : ∀ e ∈ m.pointers, e.2.id = e.1) : p.id = id := by
  unfold getOrCreatePointer at hp
  cases h : lookupA m.pointers id with
  | some p0 =>
      rw [h] at hp
      dsimp only at hp
      rw [h] at hp
      simp only [Option.some.injEq] at hp
      subst hp
      exact hid (id, p0) (lookupA_mem h)
  | none =>
      rw [h] at hp
      dsimp only at hp
      rw [lookupA_append_of_none _ h] at hp
      simp [lookupA] at hp
      rw [← hp]
      rfl

theorem registerPointerF_isSome (fs : FluidState) (id : String) (c : Option Color) :
    (lookupA (registerPointerF fs id c).pointers (fKey id)).isSome = true := by
  unfold registerPointerF
  cases h : lookupA fs.pointers (fKey id) with
  | some p =>
      rw [h]
      rfl
  | none =>
      dsimp only
      rw [lookupA_append_of_none _ h]
      cases c <;> simp [lookupA]

theorem updateMove_isSome (env : FluidEnv) (fs : FluidState) (k : String)
    (px py : ℚ) (c : Option Color)
    (h : (lookupA fs.pointers k).isSome = true) :
    (lookupA (updatePointerMoveData env fs k px py c).pointers k).isSome = true := by
  unfold updatePointerMoveData
  cases hcv : fs.canvas with
  | none => exact h
  | some wh =>
      dsimp only
      cases hp : lookupA fs.pointers k with
      | none =>
          rw [hp] at h
          simp at h
      | some p =>
          dsimp only
          rw [lookupA_setA_self]
          rfl

theorem applyInputs_mem_splat (fs : FluidState) (k : String) (p : FPointer)
    (hmem : (k, p) ∈ fs.pointers) (hmov : p.moved = true) :
    splatOf fs p ∈ (applyInputs fs).2 := by
  unfold applyInputs
  dsimp only
  refine List.mem_map.2 ⟨(k, p), ?_, rfl⟩
  refine List.mem_filter.2 ⟨hmem, ?_⟩
  exact hmov

theorem handleFluid_moved_splat (env : FluidEnv) (fs : FluidState) (a b : ℚ)
    (c0 : Option Color) (id : String) (hcv : fs.canvas.isSome = true) :
    ∃ q, lookupA (handleFluidInputOwner env fs a b c0 id).pointers
        (fKey (if id = "" then "default" else id)) = some q ∧ q.moved = true ∧
      splatOf (handleFluidInputOwner env fs a b c0 id) q
        ∈ (applyInputs (handleFluidInputOwner env fs a b c0 id)).2 := by
  obtain ⟨wh, hwh⟩ := Option.isSome_iff_exists.1 hcv
  unfold handleFluidInputOwner
  rw [hwh]
  dsimp only
  have h1 := registerPointerF_isSome fs (if id = "" then "default" else id) c0
  have h2 := updateMove_isSome env (registerPointerF fs (if id = "" then "default" else id) c0)
    (fKey (if id = "" then "default" else id))
    ((Int.floor (a * fs.dpr) : ℤ) : ℚ) ((Int.floor (b * fs.dpr) : ℤ) : ℚ) c0 h1
  obtain ⟨p2, hp2⟩ := Option.isSome_iff_exists.1 h2
  unfold setMovedTrue
  rw [hp2]
  dsimp only
  refine ⟨{ p2 with moved := true }, lookupA_setA_self _ _ _, rfl, ?_⟩
  exact applyInputs_mem_splat _ _ _ (lookupA_mem (lookupA_setA_self _ _ _)) rfl

/-! ### Claim theorems for the fluid engine -/

/-- C9, counterexample: pointer `x` is updated with the explicit colour
`[1,0,0]`, which is stored; but on the next frame the colour-cycle timer
(0.9, advancing by `dt * COLOR_UPDATE_SPEED = 1/6`) wraps, and
`_updateColors` replaces the explicit colour with the generated hue
`[0,1,0]` — the explicit colour is not kept. -/
theorem C9_counterexample :
    ((lookupA (handleFluidInputOwner demoFluidEnv demoFluidState 100 100
        (some [1, 0, 0]) "x").pointers (fKey "x")).map FPointer.color
      = some (some [1, 0, 0])) ∧
    ((lookupA (updateColors demoFluidEnv
        (handleFluidInputOwner demoFluidEnv demoFluidState 100 100
          (some [1, 0, 0]) "x") (1/60)).pointers (fKey "x")).map FPointer.color
      = some (some [0, 1, 0])) ∧
    some ([0, 1, 0] : Color) ≠ some ([1, 0, 0] : Color) := by
  refine ⟨?_, ?_, by norm_num⟩ <;>
    norm_num +decide [handleFluidInputOwner, updateColors, colorCycle,
      registerPointerF, updatePointerMoveData, setMovedTrue, createFPointer,
      demoFluidState, demoFluidEnv, fKey, lookupA, setA]

/-- C9, amended: a pointer's stored colour is set to the explicit colour on
every move update that carries one, and colours are untouched while the
colour timer stays below 1; but whenever the accumulated timer
`colorUpdateTimer + dt * COLOR_UPDATE_SPEED` reaches 1, `_updateColors`
replaces every pointer's colour — explicitly coloured pointers included —
with a freshly generated hue (the explicit colour only returns with the
pointer's next update). -/
theorem C9_amended (env : FluidEnv) (fs : FluidState) (dt : ℚ) :
    (fs.colorUpdateTimer + dt * fs.COLOR_UPDATE_SPEED < 1 →
       (updateColors env fs dt).pointers = fs.pointers) ∧
    (1 ≤ fs.colorUpdateTimer + dt * fs.COLOR_UPDATE_SPEED →
       ∀ i, (updateColors env fs dt).pointers.get? i
         = (fs.pointers.get? i).map
             (fun e => (e.1, { e.2 with color := some (env.gen (fs.rng + i)) }))) ∧
    (∀ k posX posY c, fs.canvas.isSome = true →
       (lookupA fs.pointers k).isSome = true →
       ∃ q, lookupA (updatePointerMoveData env fs k posX posY (some c)).pointers k
           = some q ∧ q.color = some c) := by
  refine ⟨?_, ?_, ?_⟩
  · intro h
    unfold updateColors
    rw [if_neg (not_le.mpr h)]
  · intro h i
    unfold updateColors
    rw [if_pos h]
    exact colorCycle_get env fs.pointers fs.rng i
  · intro k posX posY c hcv hk
    obtain ⟨wh, hwh⟩ := Option.isSome_iff_exists.1 hcv
    obtain ⟨p, hp⟩ := Option.isSome_iff_exists.1 hk
    unfold updatePointerMoveData
    rw [hwh]
    dsimp only
    rw [hp]
    dsimp only
    exact ⟨_, lookupA_setA_self _ _ _, rfl⟩

/-- Witness for the amended C9 theorem on the one-pointer demo state: a
small `dt` leaves the stored colours alone, a wrapping `dt` replaces the
pointer's colour with the generated hue, and a move update with an explicit
colour stores that colour. -/
theorem C9_amended_witness :
    (updateColors demoFluidEnv demoFluidState2 0).pointers
        = demoFluidState2.pointers ∧
    ((updateColors demoFluidEnv demoFluidState2 (1/10)).pointers.get? 0
      = (demoFluidState2.pointers.get? 0).map
          (fun e => (e.1,
            { e.2 with color := some (demoFluidEnv.gen (demoFluidState2.rng + 0)) }))) ∧
    (∃ q, lookupA (updatePointerMoveData demoFluidEnv demoFluidState2 (fKey "x")
        100 100 (some [1, 0, 0])).pointers (fKey "x") = some q ∧
      q.color = some [1, 0, 0]) :=
  ⟨(C9_amended demoFluidEnv demoFluidState2 0).1 (by norm_num [demoFluidState2]),
   (C9_amended demoFluidEnv demoFluidState2 (1/10)).2.1 (by norm_num [demoFluidState2]) 0,
   (C9_amended demoFluidEnv demoFluidState2 (1/10)).2.2 (fKey "x") 100 100 [1, 0, 0]
     (by decide) (by decide)⟩

/-- C10: routing `updatePointerPosition` with numeric coordinates to the
fluid engine always leaves the owner's pointer for `id` with `moved = true`
(set unconditionally by `_handleFluidInput` after `_updatePointerMoveData`),
so `_applyInputs` emits a splat for that pointer on the next frame — for
every reported position, including one identical to the previous position
(zero movement delta). -/
theorem C10_route_marks_moved (env : FluidEnv) (sys : FluidSys) (a b : ℚ)
    (c : Option Color) (id : String) (now : ℚ)
    (hct : sys.im.cursorType ≠ "ballpit")
    (hcv : sys.fs.canvas.isSome = true)
    (hid : ∀ e ∈ sys.im.pointers, e.2.id = e.1) :
    ∃ q, lookupA (sysUpdatePointerPosition env sys (JVal.num a) (JVal.num b) c id now).fs.pointers
        (fKey (if id = "" then "default" else id)) = some q ∧
      q.moved = true ∧
      splatOf (sysUpdatePointerPosition env sys (JVal.num a) (JVal.num b) c id now).fs q
        ∈ (applyInputs
            (sysUpdatePointerPosition env sys (JVal.num a) (JVal.num b) c id now).fs).2 := by
  unfold sysUpdatePointerPosition
  have hg : ¬(JVal.num a = JVal.undef ∨ JVal.num a = JVal.nullv ∨
      JVal.num b = JVal.undef ∨ JVal.num b = JVal.nullv) := by
    simp
  rw [if_neg hg]
  dsimp only
  obtain ⟨p, hp⟩ := lookupA_getOrCreate sys.im id c
  rw [hp]
  dsimp only
  have hpid : p.id = id := getOrCreate_lookup_id sys.im id c hp hid
  split
  · next h =>
      exfalso
      apply hct
      rw [← getOrCreate_cursorType sys.im id c]
      exact h
  · dsimp only
    rw [hpid]
    exact handleFluid_moved_splat env sys.fs a b _ id hcv

/-- Witness for C10 on a state whose pointer `x` already sits exactly at the
projection of client position (100, 100): the update has zero movement
delta, yet the pointer is marked moved and a splat is emitted. -/
theorem C10_route_marks_moved_witness :
    ∃ q, lookupA (sysUpdatePointerPosition demoFluidEnv demoFluidSys
        (JVal.num 100) (JVal.num 100) none "x" 5).fs.pointers
        (fKey (if "x" = "" then "default" else "x")) = some q ∧
      q.moved = true ∧
      splatOf (sysUpdatePointerPosition demoFluidEnv demoFluidSys
          (JVal.num 100) (JVal.num 100) none "x" 5).fs q
        ∈ (applyInputs (sysUpdatePointerPosition demoFluidEnv demoFluidSys
            (JVal.num 100) (JVal.num 100) none "x" 5).fs).2 :=
  C10_route_marks_moved demoFluidEnv demoFluidSys 100 100 none "x" 5
    (by decide) (by decide) (by decide)

end Squidly
